import Mathlib

/-!
Harbor scanner adapter for Sysdig Secure: `pkg/scanner/backend_adapter.go`.

A shallow embedding of the backend adapter and of the pieces of the Go standard
library it calls (`encoding/base64`, `strings.Split`, `strings.ReplaceAll`,
`fmt.Sprintf` with `%s` verbs), followed by theorems about the adapter.

Go strings are byte sequences; they are embedded as lists of bytes.  A pure
function that can panic in Go (index out of range, nil pointer) returns
`Option`, `none` being the panic; a method of the adapter returns an `Outcome`,
which keeps the state of the backend at the moment of the panic.  A pointer is
an option, `none` being `nil`.
-/

namespace BackendAdapter

/-! ## Go strings -/

/-- A Go `byte`. -/
abbrev GoByte := Fin 256

/-- A Go `string`: an immutable sequence of bytes. -/
abbrev GoString := List GoByte

/-- The bytes of a Go string literal (its UTF-8 encoding). -/
def gostr (s : String) : GoString := s.toUTF8.data.toList.map (fun b => b.val)

/-! ## `strings` -/

/-- Go `strings.Split(s, sep)` for a one-byte separator, which is what both call
sites of the adapter pass (`":"` and `"|"`): the fields between the occurrences
of `sep`, in order; always at least one field. -/
def Split (s : GoString) (sep : GoByte) : List GoString :=
  match s with
  | [] => [[]]
  | c :: rest =>
    if c = sep then [] :: Split rest sep
    else
      match Split rest sep with
      | hd :: tl => (c :: hd) :: tl
      | [] => [[c]]

/-- Worker of `ReplaceAll`: `skip` counts the bytes of a matched occurrence of
`old` that are still to be dropped. -/
def replaceAllAux (old new : GoString) : Nat → GoString → GoString
  | _, [] => []
  | skip + 1, _ :: rest => replaceAllAux old new skip rest
  | 0, c :: rest =>
    if old.isPrefixOf (c :: rest) then new ++ replaceAllAux old new (old.length - 1) rest
    else c :: replaceAllAux old new 0 rest

/-- Go `strings.ReplaceAll(s, old, new)` for a non-empty `old` (both call sites
pass a non-empty constant): every non-overlapping occurrence of `old`, found
left to right, is replaced by `new`. -/
def ReplaceAll (s old new : GoString) : GoString := replaceAllAux old new 0 s

/-! ## `encoding/base64` -/

/-- Go `base64.Encoding`: the 64-byte alphabet, the padding character (`none`
is `NoPadding`) and the strict flag. -/
structure Encoding where
  encode : List GoByte
  padChar : Option GoByte
  strict : Bool

/-- The alphabet `encodeStd`. -/
def encodeStd : List GoByte :=
  gostr "ABCDEFGHIJKLMNOPQRSTUVWXYZabcdefghijklmnopqrstuvwxyz0123456789+/"

/-- The alphabet `encodeURL`. -/
def encodeURL : List GoByte :=
  gostr "ABCDEFGHIJKLMNOPQRSTUVWXYZabcdefghijklmnopqrstuvwxyz0123456789-_"

/-- Go `base64.StdEncoding`: standard alphabet, padding `'='`, not strict. -/
def StdEncoding : Encoding := ⟨encodeStd, some 61, false⟩

/-- Go `base64.URLEncoding`: URL alphabet, padding `'='`, not strict. -/
def URLEncoding : Encoding := ⟨encodeURL, some 61, false⟩

/-- The entry `enc.encode[i]` of the alphabet. -/
def Encoding.encodeAt (enc : Encoding) (i : Nat) : GoByte := enc.encode.getD i 0

/-- The table `enc.decodeMap`: the index of `c` in the alphabet, `0xff` for a
byte that is not in the alphabet. -/
def Encoding.decodeMap (enc : Encoding) (c : GoByte) : Nat :=
  if enc.encode.indexOf c < enc.encode.length then enc.encode.indexOf c else 0xff

/-- Go `(*Encoding).Encode` together with `EncodeToString`: three source bytes
give four alphabet bytes; the remaining one or two bytes give a padded group. -/
def Encoding.EncodeToString (enc : Encoding) : List GoByte → List GoByte
  | a :: b :: c :: rest =>
    let val := a.val <<< 16 ||| b.val <<< 8 ||| c.val
    enc.encodeAt (val >>> 18 &&& 0x3F) :: enc.encodeAt (val >>> 12 &&& 0x3F) ::
      enc.encodeAt (val >>> 6 &&& 0x3F) :: enc.encodeAt (val &&& 0x3F) ::
      enc.EncodeToString rest
  | [a, b] =>
    let val := a.val <<< 16 ||| b.val <<< 8
    [enc.encodeAt (val >>> 18 &&& 0x3F), enc.encodeAt (val >>> 12 &&& 0x3F),
      enc.encodeAt (val >>> 6 &&& 0x3F)] ++
      (match enc.padChar with
       | some p => [p]
       | none => [])
  | [a] =>
    let val := a.val <<< 16
    [enc.encodeAt (val >>> 18 &&& 0x3F), enc.encodeAt (val >>> 12 &&& 0x3F)] ++
      (match enc.padChar with
       | some p => [p, p]
       | none => [])
  | [] => []

/-- What one call of `decodeQuantum` returns: the unread source `src[nsi:]`,
the new source index `nsi`, the bytes written and counted (`dst[:n]`), and the
error (`CorruptInputError` with its offset) if any. -/
structure Quantum where
  rest : List GoByte
  nsi : Nat
  out : List GoByte
  err : Option Nat
deriving DecidableEq, Repr

/-- The loop `for si < len(src) && (src[si] == '\n' || src[si] == '\r') { si++ }`. -/
def skipNewlines : List GoByte → Nat → List GoByte × Nat
  | [], si => ([], si)
  | c :: rest, si =>
    if c = 10 ∨ c = 13 then skipNewlines rest (si + 1) else (c :: rest, si)

/-- The tail of `decodeQuantum`: "Convert 4x 6bit source bytes into 3 bytes" and
the `switch dlen` that stores them.  `dbuf` holds the sextets read so far
(entries not read are zero), `err` is the trailing-garbage error if one was
recorded. -/
def Encoding.convertQuantum (enc : Encoding) (dbuf : List Nat) (dlen : Nat)
    (rest : List GoByte) (si : Nat) (err : Option Nat) : Quantum :=
  let val := dbuf.getD 0 0 <<< 18 ||| dbuf.getD 1 0 <<< 12 ||| dbuf.getD 2 0 <<< 6 |||
    dbuf.getD 3 0
  let b2 : GoByte := Fin.ofNat (val >>> 0)
  let b1 : GoByte := Fin.ofNat (val >>> 8)
  let b0 : GoByte := Fin.ofNat (val >>> 16)
  match dlen with
  | 4 => ⟨rest, si, [b0, b1, b2], err⟩
  | 3 =>
    if enc.strict && b2 != 0 then ⟨rest, si, [], some (si - 1)⟩
    else ⟨rest, si, [b0, b1], err⟩
  | 2 =>
    if enc.strict && (b1 != 0 || b2 != 0) then ⟨rest, si, [], some (si - 2)⟩
    else ⟨rest, si, [b0], err⟩
  | _ => ⟨rest, si, [], err⟩

/-- The end of the padding branch of `decodeQuantum`: skip newlines, record
trailing garbage, set `dlen = j` and leave the loop. -/
def Encoding.afterPadding (enc : Encoding) (dbuf : List Nat) (rest : List GoByte)
    (si : Nat) : Quantum :=
  let p := skipNewlines rest si
  match p.1 with
  | [] => enc.convertQuantum dbuf dbuf.length [] p.2 none
  | c :: more => enc.convertQuantum dbuf dbuf.length (c :: more) p.2 (some p.2)

/-- Go `(*Encoding).decodeQuantum(dst, src, si)`, with `src[si:]` passed as the
list `src` and the loop counter `j` kept as the length of `dbuf`. -/
def Encoding.decodeQuantum (enc : Encoding) :
    List Nat → List GoByte → Nat → Quantum
  | dbuf, [], si =>
    if dbuf.length = 0 then ⟨[], si, [], none⟩
    else if dbuf.length = 1 ∨ enc.padChar ≠ none then ⟨[], si, [], some (si - dbuf.length)⟩
    else enc.convertQuantum dbuf dbuf.length [] si none
  | dbuf, c :: rest, si =>
    if enc.decodeMap c ≠ 0xff then
      if dbuf.length = 3 then
        enc.convertQuantum (dbuf ++ [enc.decodeMap c]) 4 rest (si + 1) none
      else enc.decodeQuantum (dbuf ++ [enc.decodeMap c]) rest (si + 1)
    else if c = 10 ∨ c = 13 then enc.decodeQuantum dbuf rest (si + 1)
    else if some c ≠ enc.padChar then ⟨rest, si + 1, [], some si⟩
    else
      match dbuf.length with
      | 0 => ⟨rest, si + 1, [], some si⟩
      | 1 => ⟨rest, si + 1, [], some si⟩
      | 2 =>
        let p := skipNewlines rest (si + 1)
        match p.1 with
        | [] => ⟨[], p.2, [], some p.2⟩
        | c2 :: more =>
          if some c2 ≠ enc.padChar then ⟨c2 :: more, p.2, [], some (p.2 - 1)⟩
          else enc.afterPadding dbuf more (p.2 + 1)
      | _ => enc.afterPadding dbuf rest (si + 1)

/-- Go `(*Encoding).Decode`: `decodeQuantum` is called until the source is used
up or an error is returned; the bytes decoded before an error are kept.  The
64-bit and 32-bit fast paths of the Go code decode the same bytes as
`decodeQuantum` and fall back to it on any byte outside the alphabet, so they
are not modelled apart.  `fuel` bounds the number of quanta. -/
def Encoding.Decode (enc : Encoding) : Nat → List GoByte → Nat → List GoByte × Option Nat
  | 0, _, _ => ([], none)
  | _ + 1, [], _ => ([], none)
  | fuel + 1, c :: src, si =>
    let q := enc.decodeQuantum [] (c :: src) si
    match q.err with
    | some e => (q.out, some e)
    | none =>
      let r := enc.Decode fuel q.rest q.nsi
      (q.out ++ r.1, r.2)

/-- Go `(*Encoding).DecodeString(s)`: returns `dbuf[:n], err`. -/
def Encoding.DecodeString (enc : Encoding) (s : GoString) : GoString × Option Nat :=
  enc.Decode s.length s 0

/-! ## `pkg/scanner/backend_adapter.go`: scan handles -/

/-- Go `fmt.Sprintf("%s|%s", a, b)`. -/
def sprintfPipe (a b : GoString) : GoString := a ++ 124 :: b

/-- Source: `createScanResponseID`. -/
def createScanResponseID (repository shaDigest : GoString) : GoString :=
  URLEncoding.EncodeToString (sprintfPipe repository shaDigest)

/-- Source: `parseScanResponseID`.  The decoding error is dropped (`plain, _ :=`),
`splitted[0]` and `splitted[1]` are indexed without a length check: `none` is
the index-out-of-range panic. -/
def parseScanResponseID (scanResponseID : GoString) : Option (GoString × GoString) :=
  let plain := (URLEncoding.DecodeString scanResponseID).1
  let splitted := Split plain 124
  match splitted[0]?, splitted[1]? with
  | some a, some b => some (a, b)
  | _, _ => none

/-- The properties of an encoding that the round trip uses: the decode table
inverts the alphabet, the padding character is `'='` and is not in the
alphabet, and the encoding is not strict. -/
def Encoding.Regular (enc : Encoding) : Prop :=
  (∀ i : Fin 64, enc.decodeMap (enc.encodeAt i.val) = i.val) ∧
    enc.padChar = some 61 ∧ enc.decodeMap 61 = 0xff ∧ enc.strict = false

/-! ## The packages `harbor` and `secure`, as far as the adapter uses them -/

/-- Modelled from the spec: Go `error` values.  The sentinel errors of the
packages `secure` and `scanner` are declared in files that are not part of the
sources at hand (`pkg/secure`, `pkg/scanner/adapter.go`); they are distinct
values, compared with `==`, and every other error is an `other`. -/
inductive GoError where
  | secureErrRegistryAlreadyExists
  | secureErrImageNotFound
  | secureErrVulnerabiltyReportNotReady
  | scannerErrScanRequestIDNotFound
  | scannerErrVulnerabiltyReportNotReady
  | other (msg : GoString)
deriving DecidableEq, Repr

/-- Go `secure.ErrRegistryAlreadyExists`. -/
def secure.ErrRegistryAlreadyExists : GoError := GoError.secureErrRegistryAlreadyExists

/-- Go `secure.ErrImageNotFound`. -/
def secure.ErrImageNotFound : GoError := GoError.secureErrImageNotFound

/-- Go `secure.ErrVulnerabiltyReportNotReady`. -/
def secure.ErrVulnerabiltyReportNotReady : GoError := GoError.secureErrVulnerabiltyReportNotReady

/-- Go `scanner.ErrScanRequestIDNotFound`, the adapter's own error. -/
def ErrScanRequestIDNotFound : GoError := GoError.scannerErrScanRequestIDNotFound

/-- Go `scanner.ErrVulnerabiltyReportNotReady`, the adapter's own error. -/
def ErrVulnerabiltyReportNotReady : GoError := GoError.scannerErrVulnerabiltyReportNotReady

/-- A Go `time.Time`, as a number; `0` is the zero value. -/
abbrev GoTime := Int

/-- Modelled from the spec: `harbor.Severity`, a string type (the adapter casts
the backend's severity string to it). -/
abbrev harbor.Severity := GoString

/-- Modelled from the spec: the constant `harbor.UNKNOWN` (package `harbor` is
not part of the sources at hand). -/
def harbor.UNKNOWN : harbor.Severity := gostr "Unknown"

/-- Modelled from the spec: the constant `harbor.NEGLIGIBLE`. -/
def harbor.NEGLIGIBLE : harbor.Severity := gostr "Negligible"

/-- Modelled from the spec: the constant `harbor.LOW`. -/
def harbor.LOW : harbor.Severity := gostr "Low"

/-- Modelled from the spec: the constant `harbor.MEDIUM`. -/
def harbor.MEDIUM : harbor.Severity := gostr "Medium"

/-- Modelled from the spec: the constant `harbor.HIGH`. -/
def harbor.HIGH : harbor.Severity := gostr "High"

/-- Modelled from the spec: the constant `harbor.CRITICAL`. -/
def harbor.CRITICAL : harbor.Severity := gostr "Critical"

/-- Modelled from the spec: the constant
`harbor.DockerDistributionManifestMimeType`. -/
def harbor.DockerDistributionManifestMimeType : GoString :=
  gostr "application/vnd.docker.distribution.manifest.v2+json"

/-- Modelled from the spec: `harbor.Registry`, the fields the adapter reads. -/
structure harbor.Registry where
  URL : GoString
  Authorization : GoString
deriving DecidableEq, Repr

/-- Modelled from the spec: `harbor.Artifact`, the fields the adapter reads and
writes. -/
structure harbor.Artifact where
  Repository : GoString
  Digest : GoString
  Tag : GoString
  MimeType : GoString
deriving DecidableEq, Repr

/-- Modelled from the spec: `harbor.ScanRequest`. -/
structure harbor.ScanRequest where
  Registry : harbor.Registry
  Artifact : harbor.Artifact
deriving DecidableEq, Repr

/-- Modelled from the spec: `harbor.ScanResponse`; the zero value has the empty
`ID`. -/
structure harbor.ScanResponse where
  ID : GoString
deriving DecidableEq, Repr

/-- Modelled from the spec: `harbor.Scanner`. -/
structure harbor.Scanner where
  Name : GoString
  Vendor : GoString
  Version : GoString
deriving DecidableEq, Repr

/-- Modelled from the spec: `harbor.VulnerabilityItem`, the fields that
`toHarborVulnerabilityItem` sets. -/
structure harbor.VulnerabilityItem where
  ID : GoString
  Package : GoString
  Version : GoString
  FixVersion : GoString
  Severity : harbor.Severity
  Links : List GoString
deriving DecidableEq, Repr

/-- Modelled from the spec: `harbor.VulnerabilityReport`.  The pointer fields
`Artifact` and `Scanner` are options, `none` being `nil`. -/
structure harbor.VulnerabilityReport where
  GeneratedAt : GoTime
  Artifact : Option harbor.Artifact
  Scanner : Option harbor.Scanner
  Severity : harbor.Severity
  Vulnerabilities : List harbor.VulnerabilityItem
deriving DecidableEq, Repr

/-- The zero value `harbor.VulnerabilityReport{}`. -/
def harbor.VulnerabilityReport.zero : harbor.VulnerabilityReport := ⟨0, none, none, [], []⟩

/-- The zero value `harbor.ScanResponse{}`. -/
def harbor.ScanResponse.zero : harbor.ScanResponse := ⟨[]⟩

/-- Modelled from the spec: `secure.Vulnerability`, the fields the adapter
reads. -/
structure secure.Vulnerability where
  Vuln : GoString
  PackageName : GoString
  PackageVersion : GoString
  Fix : GoString
  Severity : GoString
  URL : GoString
deriving DecidableEq, Repr

/-- Modelled from the spec: `secure.VulnerabilityReport`.  The adapter reads the
entries of `Vulnerabilities` as pointers (`*secure.Vulnerability`): an entry is
an option, `none` being `nil`. -/
structure secure.VulnerabilityReport where
  Vulnerabilities : List (Option secure.Vulnerability)
deriving DecidableEq, Repr

/-- Modelled from the spec: `secure.ImageDetail`, the fields the adapter reads. -/
structure secure.ImageDetail where
  Repository : GoString
  Digest : GoString
  Tag : GoString
  CreatedAt : GoTime
deriving DecidableEq, Repr

/-- Modelled from the spec: `secure.ScanResponse`, the fields the adapter reads.
The element type of `ImageDetail` is declared outside the sources at hand; its
entries are taken as records. -/
structure secure.ScanResponse where
  ImageDigest : GoString
  ImageDetail : List secure.ImageDetail
deriving DecidableEq, Repr

/-- Modelled from the spec: the interface `secure.Client`.  A method takes the
state `σ` of the backend and returns what the Go method returns (a value and
an error, `none` being `nil`) together with the new state. -/
structure secure.Client (σ : Type) where
  AddRegistry : GoString → GoString → GoString → σ → Option GoError × σ
  UpdateRegistry : GoString → GoString → GoString → σ → Option GoError × σ
  AddImage : GoString → Bool → σ → (secure.ScanResponse × Option GoError) × σ
  GetVulnerabilities : GoString → σ → (secure.VulnerabilityReport × Option GoError) × σ
  GetImage : GoString → σ → (secure.ScanResponse × Option GoError) × σ

/-! ## `pkg/scanner/backend_adapter.go` -/

/-- How a call of a method of the adapter ends: it returns a value and leaves
the backend in a state, or it panics (index out of range, nil pointer), the
backend being in the state `st` at that moment. -/
inductive Outcome (α σ : Type) where
  | returned (result : α × σ)
  | panicked (st : σ)
deriving DecidableEq, Repr

/-- What a call returned, `none` for a call that panicked. -/
def Outcome.result {α σ : Type} : Outcome α σ → Option (α × σ)
  | Outcome.returned r => some r
  | Outcome.panicked _ => none

/-- Source: the variable `scanner`; `secure.BackendVersion` is a parameter. -/
def scanner (backendVersion : GoString) : harbor.Scanner :=
  { Name := gostr "Sysdig Secure", Vendor := gostr "Sysdig", Version := backendVersion }

/-- Source: the map literal `severities`, as its list of entries. -/
def severitiesEntries : List (harbor.Severity × Int) :=
  [(harbor.UNKNOWN, 0), (harbor.NEGLIGIBLE, 1), (harbor.LOW, 2), (harbor.MEDIUM, 3),
    (harbor.HIGH, 4), (harbor.CRITICAL, 5)]

/-- Source: the index expression `severities[k]`; a key that is not in a Go map
reads as the zero value. -/
def severities (k : harbor.Severity) : Int := (severitiesEntries.lookup k).getD 0

/-- Source: `getRegistryFrom`. -/
def getRegistryFrom (req : harbor.ScanRequest) : GoString :=
  ReplaceAll req.Registry.URL (gostr "https://") (gostr "")

/-- Source: `getUserAndPasswordFrom`.  The decoding error is dropped and
`splitted[0]`, `splitted[1]` are indexed without a length check: `none` is the
index-out-of-range panic. -/
def getUserAndPasswordFrom (authorization : GoString) : Option (GoString × GoString) :=
  let payload := ReplaceAll authorization (gostr "Basic ") (gostr "")
  let plain := (StdEncoding.DecodeString payload).1
  let splitted := Split plain 58
  match splitted[0]?, splitted[1]? with
  | some a, some b => some (a, b)
  | _, _ => none

/-- Source: `getImageFrom`, `fmt.Sprintf("%s/%s:%s", ...)`. -/
def getImageFrom (req : harbor.ScanRequest) : GoString :=
  getRegistryFrom req ++ gostr "/" ++ req.Artifact.Repository ++ gostr ":" ++ req.Artifact.Tag

/-- Source: `(*backendAdapter).setupCredentials`.  The panic is the one of
`getUserAndPasswordFrom`, raised before `AddRegistry` is called. -/
def setupCredentials {σ : Type} (s : secure.Client σ) (req : harbor.ScanRequest) (st : σ) :
    Outcome (Option GoError) σ :=
  let registry := getRegistryFrom req
  match getUserAndPasswordFrom req.Registry.Authorization with
  | none => Outcome.panicked st
  | some (user, password) =>
    match s.AddRegistry registry user password st with
    | (some err, st1) =>
      if err ≠ secure.ErrRegistryAlreadyExists then Outcome.returned (some err, st1)
      else
        match s.UpdateRegistry registry user password st1 with
        | (some err2, st2) => Outcome.returned (some err2, st2)
        | (none, st2) => Outcome.returned (none, st2)
    | (none, st1) => Outcome.returned (none, st1)

/-- Source: `(*backendAdapter).Scan`. -/
def Scan {σ : Type} (s : secure.Client σ) (req : harbor.ScanRequest) (st : σ) :
    Outcome (harbor.ScanResponse × Option GoError) σ :=
  match setupCredentials s req st with
  | Outcome.panicked st1 => Outcome.panicked st1
  | Outcome.returned (some err, st1) => Outcome.returned ((harbor.ScanResponse.zero, some err), st1)
  | Outcome.returned (none, st1) =>
    match s.AddImage (getImageFrom req) false st1 with
    | ((_, some err), st2) => Outcome.returned ((harbor.ScanResponse.zero, some err), st2)
    | ((response, none), st2) =>
      Outcome.returned
        ((harbor.ScanResponse.mk
          (createScanResponseID req.Artifact.Repository response.ImageDigest), none), st2)

/-- Source: the composite literal that `toHarborVulnerabilityItem` returns, for
the record `vulnerability` behind its pointer argument. -/
def vulnerabilityItemOf (vulnerability : secure.Vulnerability) : harbor.VulnerabilityItem :=
  { ID := vulnerability.Vuln
    Package := vulnerability.PackageName
    Version := vulnerability.PackageVersion
    FixVersion := vulnerability.Fix
    Severity := vulnerability.Severity
    Links := [vulnerability.URL] }

/-- Source: `toHarborVulnerabilityItem`.  The argument is a pointer
(`*secure.Vulnerability`) whose fields are read without a nil check: on `nil`
the function panics, which is the result `none`. -/
def toHarborVulnerabilityItem :
    Option secure.Vulnerability → Option harbor.VulnerabilityItem
  | none => none
  | some vulnerability => some (vulnerabilityItemOf vulnerability)

/-- Source: the body of the `for ... range vulnerabilityReport.Vulnerabilities`
loop of `fillVulnerabilities`, after the call of `toHarborVulnerabilityItem`:
the item is appended and the severity raised when the item's rank is strictly
higher. -/
def fillVulnerability (result : harbor.VulnerabilityReport)
    (vulnerabilityItem : harbor.VulnerabilityItem) : harbor.VulnerabilityReport :=
  let result1 := { result with Vulnerabilities := result.Vulnerabilities ++ [vulnerabilityItem] }
  if severities result1.Severity < severities vulnerabilityItem.Severity then
    { result1 with Severity := vulnerabilityItem.Severity }
  else result1

/-- Source: the `for ... range vulnerabilityReport.Vulnerabilities` loop of
`fillVulnerabilities`; `none` is the panic of `toHarborVulnerabilityItem` on a
nil entry. -/
def fillVulnerabilitiesLoop (result : harbor.VulnerabilityReport) :
    List (Option secure.Vulnerability) → Option harbor.VulnerabilityReport
  | [] => some result
  | vulnerability :: rest =>
    match toHarborVulnerabilityItem vulnerability with
    | none => none
    | some vulnerabilityItem =>
      fillVulnerabilitiesLoop (fillVulnerability result vulnerabilityItem) rest

/-- Source: `(*backendAdapter).fillVulnerabilities`; the report behind the
pointer `result` is passed in and returned.  It panics on a nil entry of the
backend's list, after `GetVulnerabilities` has been called. -/
def fillVulnerabilities {σ : Type} (s : secure.Client σ) (shaDigest : GoString)
    (result : harbor.VulnerabilityReport) (st : σ) :
    Outcome (Option GoError × harbor.VulnerabilityReport) σ :=
  match s.GetVulnerabilities shaDigest st with
  | ((_, some err), st1) =>
    if err = secure.ErrImageNotFound then
      Outcome.returned ((some ErrScanRequestIDNotFound, result), st1)
    else if err = secure.ErrVulnerabiltyReportNotReady then
      Outcome.returned ((some ErrVulnerabiltyReportNotReady, result), st1)
    else Outcome.returned ((some err, result), st1)
  | ((vulnerabilityReport, none), st1) =>
    match fillVulnerabilitiesLoop result vulnerabilityReport.Vulnerabilities with
    | none => Outcome.panicked st1
    | some result1 => Outcome.returned ((none, result1), st1)

/-- Source: the `for ... range scanResponse.ImageDetail` loop of `fillArtifact`,
which returns at the first entry of the requested repository. -/
def fillArtifactLoop (repository : GoString) (result : harbor.VulnerabilityReport) :
    List secure.ImageDetail → harbor.VulnerabilityReport
  | [] => result
  | imageDetail :: rest =>
    if imageDetail.Repository = repository then
      { result with
        GeneratedAt := imageDetail.CreatedAt
        Artifact := some
          { Repository := imageDetail.Repository
            Digest := imageDetail.Digest
            Tag := imageDetail.Tag
            MimeType := harbor.DockerDistributionManifestMimeType } }
    else fillArtifactLoop repository result rest

/-- Source: `(*backendAdapter).fillArtifact`.  The error of `GetImage` is
dropped (`scanResponse, _ :=`). -/
def fillArtifact {σ : Type} (s : secure.Client σ) (repository shaDigest : GoString)
    (result : harbor.VulnerabilityReport) (st : σ) : harbor.VulnerabilityReport × σ :=
  match s.GetImage shaDigest st with
  | ((scanResponse, _), st1) => (fillArtifactLoop repository result scanResponse.ImageDetail, st1)

/-- Source: `(*backendAdapter).GetVulnerabilityReport`.  It panics in
`parseScanResponseID`, before any call to the backend, or in
`fillVulnerabilities`. -/
def GetVulnerabilityReport {σ : Type} (backendVersion : GoString) (s : secure.Client σ)
    (scanResponseID : GoString) (st : σ) :
    Outcome (harbor.VulnerabilityReport × Option GoError) σ :=
  let result : harbor.VulnerabilityReport :=
    { harbor.VulnerabilityReport.zero with
      Scanner := some (scanner backendVersion)
      Severity := harbor.UNKNOWN }
  match parseScanResponseID scanResponseID with
  | none => Outcome.panicked st
  | some (repository, shaDigest) =>
    match fillVulnerabilities s shaDigest result st with
    | Outcome.panicked st1 => Outcome.panicked st1
    | Outcome.returned ((some err, _), st1) =>
      Outcome.returned ((harbor.VulnerabilityReport.zero, some err), st1)
    | Outcome.returned ((none, result1), st1) =>
      match fillArtifact s repository shaDigest result1 st1 with
      | (result2, st2) => Outcome.returned ((result2, none), st2)

/-! ## Observing the calls made to the backend -/

/-- A call of a method of `secure.Client`, with its arguments. -/
inductive Call where
  | AddRegistry (registry user password : GoString)
  | UpdateRegistry (registry user password : GoString)
  | AddImage (image : GoString) (force : Bool)
  | GetVulnerabilities (shaDigest : GoString)
  | GetImage (shaDigest : GoString)
deriving DecidableEq, Repr

/-- The client `c` with a journal: every method appends the call it received to
the list kept next to the state of `c`, and otherwise behaves as `c`. -/
def recording {σ : Type} (c : secure.Client σ) : secure.Client (σ × List Call) where
  AddRegistry r u p st :=
    ((c.AddRegistry r u p st.1).1, ((c.AddRegistry r u p st.1).2, st.2 ++ [Call.AddRegistry r u p]))
  UpdateRegistry r u p st :=
    ((c.UpdateRegistry r u p st.1).1,
      ((c.UpdateRegistry r u p st.1).2, st.2 ++ [Call.UpdateRegistry r u p]))
  AddImage i f st :=
    ((c.AddImage i f st.1).1, ((c.AddImage i f st.1).2, st.2 ++ [Call.AddImage i f]))
  GetVulnerabilities d st :=
    ((c.GetVulnerabilities d st.1).1,
      ((c.GetVulnerabilities d st.1).2, st.2 ++ [Call.GetVulnerabilities d]))
  GetImage d st :=
    ((c.GetImage d st.1).1, ((c.GetImage d st.1).2, st.2 ++ [Call.GetImage d]))

/-- The report `GetVulnerabilityReport` starts from: the scanner and the
severity `UNKNOWN`, every other field zero. -/
def initialReport (backendVersion : GoString) : harbor.VulnerabilityReport :=
  { harbor.VulnerabilityReport.zero with
    Scanner := some (scanner backendVersion)
    Severity := harbor.UNKNOWN }

/-- A backend without state that answers every call with a fixed result. -/
def fixedClient (addRegistry updateRegistry : Option GoError)
    (addImage : secure.ScanResponse × Option GoError)
    (getVulnerabilities : secure.VulnerabilityReport × Option GoError)
    (getImage : secure.ScanResponse × Option GoError) : secure.Client Unit where
  AddRegistry _ _ _ st := (addRegistry, st)
  UpdateRegistry _ _ _ st := (updateRegistry, st)
  AddImage _ _ st := (addImage, st)
  GetVulnerabilities _ st := (getVulnerabilities, st)
  GetImage _ st := (getImage, st)

/-- A backend vulnerability record with the given identifier and severity. -/
def vulnerabilityOf (vuln severity : String) : secure.Vulnerability :=
  { Vuln := gostr vuln, PackageName := gostr "openssl", PackageVersion := gostr "1.1.1",
    Fix := gostr "1.1.2", Severity := gostr severity, URL := gostr "https://nvd.example/" }

/-- The handle of repository `sysdig/agent` and digest `sha256:0a1b`. -/
def agentHandle : GoString := createScanResponseID (gostr "sysdig/agent") (gostr "sha256:0a1b")

/-- A backend that reports the given vulnerability records for every digest and
has no image detail. -/
def reportingClient (vulnerabilities : List secure.Vulnerability) : secure.Client Unit :=
  fixedClient none none (⟨[], []⟩, none) (⟨vulnerabilities.map some⟩, none) (⟨[], []⟩, none)

/-- A backend whose `GetVulnerabilities` succeeds with the given entries, `none`
being a nil entry, and whose `GetImage` answers with the given image detail. -/
def entriesClient (entries : List (Option secure.Vulnerability))
    (details : List secure.ImageDetail) : secure.Client Unit :=
  fixedClient none none (⟨[], []⟩, none) (⟨entries⟩, none) (⟨[], details⟩, none)

/-- A backend whose `GetVulnerabilities` fails with the given error. -/
def failingClient (e : GoError) : secure.Client Unit :=
  fixedClient none none (⟨[], []⟩, none) (⟨[]⟩, some e) (⟨[], []⟩, none)

/-- Whether a call is a call of `AddImage`. -/
def Call.isAddImage : Call → Bool
  | Call.AddImage _ _ => true
  | _ => false

/-- The credential map of the reference backend: entries
`(registry, (user, password))`. -/
abbrev Registries := List (GoString × (GoString × GoString))

/-- Replace the credentials of every entry of `registry`. -/
def overwrite (registry user password : GoString) (m : Registries) : Registries :=
  m.map (fun e => if e.1 = registry then (registry, (user, password)) else e)

/-- The reference backend: its state is the credential map.  `AddRegistry`
fails with `ErrRegistryAlreadyExists` when the registry is already a key and
otherwise inserts; `UpdateRegistry` overwrites; `AddImage` accepts every image
and answers with the digest `digestOf image`; the two queries answer with empty
results. -/
def referenceBackend (digestOf : GoString → GoString) : secure.Client Registries where
  AddRegistry r u p m :=
    if r ∈ m.map Prod.fst then (some secure.ErrRegistryAlreadyExists, m)
    else (none, m ++ [(r, (u, p))])
  UpdateRegistry r u p m := (none, overwrite r u p m)
  AddImage image _ m := ((⟨digestOf image, []⟩, none), m)
  GetVulnerabilities _ m := ((⟨[]⟩, none), m)
  GetImage _ m := ((⟨[], []⟩, none), m)

/-- The scan request of the first end-to-end scenario. -/
def agentRequest : harbor.ScanRequest :=
  { Registry :=
      { URL := gostr "https://index.docker.io", Authorization := gostr "Basic dXNlcjpwYXNz" },
    Artifact :=
      { Repository := gostr "sysdig/agent", Digest := gostr "", Tag := gostr "9.8.0",
        MimeType := gostr "" } }

/-- A backend whose `GetVulnerabilities` succeeds with the given records and
whose `GetImage` fails with the given error. -/
def imagelessClient (vulnerabilities : List secure.Vulnerability) (e : GoError) :
    secure.Client Unit :=
  fixedClient none none (⟨[], []⟩, none) (⟨vulnerabilities.map some⟩, none) (⟨[], []⟩, some e)

/-- A backend that reports no vulnerability and answers `GetImage` with the
given image detail. -/
def detailClient (details : List secure.ImageDetail) : secure.Client Unit :=
  fixedClient none none (⟨[], []⟩, none) (⟨[]⟩, none) (⟨[], details⟩, none)

/-- An image-detail entry of the given repository and tag, of digest
`sha256:0a1b`. -/
def detailOf (repository tag : String) (createdAt : GoTime) : secure.ImageDetail :=
  { Repository := gostr repository, Digest := gostr "sha256:0a1b", Tag := gostr tag,
    CreatedAt := createdAt }

/-- A scan request for `sysdig/agent:9.8.0` with the given registry URL and
authorization header. -/
def requestOf (url authorization : GoString) : harbor.ScanRequest :=
  harbor.ScanRequest.mk (harbor.Registry.mk url authorization)
    (harbor.Artifact.mk (gostr "sysdig/agent") (gostr "") (gostr "9.8.0") (gostr ""))

/-- The records of the third end-to-end scenario: severities `Low`, `Critical`,
`Medium`, in that order. -/
def threeFindings : List secure.Vulnerability :=
  [vulnerabilityOf "CVE-1" "Low", vulnerabilityOf "CVE-2" "Critical",
    vulnerabilityOf "CVE-3" "Medium"]

/-- A backend for a whole scenario: it accepts the registry, answers `AddImage`
with the digest `sha256:0a1b`, reports one record of severity `High`, and has
image detail for `library/nginx` and for `sysdig/agent:9.8.0`. -/
def scenarioClient : secure.Client Unit :=
  fixedClient none none (⟨gostr "sha256:0a1b", []⟩, none)
    (⟨[some (vulnerabilityOf "CVE-1" "High")]⟩, none)
    (⟨[], [detailOf "library/nginx" "1.19" 5, detailOf "sysdig/agent" "9.8.0" 7]⟩, none)

/-- The four records of `mixedFindings`, one of a severity outside the ranking
table. -/
def mixedFindings : List secure.Vulnerability :=
  [vulnerabilityOf "CVE-1" "Low", vulnerabilityOf "CVE-2" "Informational",
    vulnerabilityOf "CVE-3" "High", vulnerabilityOf "CVE-4" "Medium"]

/-- The records of `mixedFindings` in another order. -/
def mixedFindingsShuffled : List secure.Vulnerability :=
  [vulnerabilityOf "CVE-3" "High", vulnerabilityOf "CVE-4" "Medium",
    vulnerabilityOf "CVE-2" "Informational", vulnerabilityOf "CVE-1" "Low"]

/-! # Theorems -/

/-! ## Bit operations as arithmetic -/

theorem and_0x3F (x : Nat) : x &&& 0x3F = x % 64 := Nat.and_pow_two_sub_one_eq_mod x 6

theorem or_eq_add (i x b : Nat) (hx : 2 ^ i ∣ x) (hb : b < 2 ^ i) : x ||| b = x + b := by
  obtain ⟨k, rfl⟩ := hx
  exact (Nat.mul_add_lt_is_or hb k).symm

theorem shl_or2 (a b : Nat) (hb : b < 256) :
    a <<< 16 ||| b <<< 8 = a * 65536 + b * 256 := by
  simp only [Nat.shiftLeft_eq]
  rw [or_eq_add 16 (a * 2 ^ 16) (b * 2 ^ 8) (Dvd.intro_left _ rfl) (by omega)]
  omega

theorem shl_or3 (a b c : Nat) (hb : b < 256) (hc : c < 256) :
    a <<< 16 ||| b <<< 8 ||| c = a * 65536 + b * 256 + c := by
  rw [shl_or2 a b hb, or_eq_add 8 _ c (by norm_num; omega) (by omega)]

theorem shl_or4 (a b c d : Nat) (hb : b < 64) (hc : c < 64) (hd : d < 64) :
    a <<< 18 ||| b <<< 12 ||| c <<< 6 ||| d = a * 262144 + b * 4096 + c * 64 + d := by
  simp only [Nat.shiftLeft_eq]
  rw [or_eq_add 18 (a * 2 ^ 18) (b * 2 ^ 12) (Dvd.intro_left _ rfl) (by omega),
    or_eq_add 12 _ (c * 2 ^ 6) (by norm_num; omega) (by omega),
    or_eq_add 6 _ d (by norm_num; omega) (by omega)]
  omega

/-! ## Base64: decoding what was encoded -/

set_option maxRecDepth 100000 in
theorem URLEncoding_regular : URLEncoding.Regular := by
  refine ⟨by decide, rfl, by decide, rfl⟩

set_option maxRecDepth 100000 in
theorem StdEncoding_regular : StdEncoding.Regular := by
  refine ⟨by decide, rfl, by decide, rfl⟩

theorem decodeMap_encodeAt (enc : Encoding) (h : enc.Regular) (i : Nat) (hi : i < 64) :
    enc.decodeMap (enc.encodeAt i) = i := h.1 ⟨i, hi⟩

/-- One step of `decodeQuantum` on a byte of the alphabet. -/
theorem decodeQuantum_alphabet (enc : Encoding) (h : enc.Regular) (i : Nat) (hi : i < 64)
    (dbuf : List Nat) (rest : List GoByte) (si : Nat) :
    enc.decodeQuantum dbuf (enc.encodeAt i :: rest) si =
      if dbuf.length = 3 then enc.convertQuantum (dbuf ++ [i]) 4 rest (si + 1) none
      else enc.decodeQuantum (dbuf ++ [i]) rest (si + 1) := by
  have hd := decodeMap_encodeAt enc h i hi
  have hne : i ≠ 255 := by omega
  rw [Encoding.decodeQuantum]
  simp only [hd, ne_eq, hne, not_false_eq_true, if_true]

/-- A full group: four alphabet bytes decode to the three bytes they encode. -/
theorem decodeQuantum_full (enc : Encoding) (h : enc.Regular) (a b c : GoByte)
    (rest : List GoByte) (si : Nat) :
    enc.decodeQuantum [] (enc.EncodeToString [a, b, c] ++ rest) si =
      ⟨rest, si + 4, [a, b, c], none⟩ := by
  obtain ⟨a, ha⟩ := a
  obtain ⟨b, hb⟩ := b
  obtain ⟨c, hc⟩ := c
  simp only [Encoding.EncodeToString, List.cons_append, List.nil_append, and_0x3F,
    shl_or3 a b c hb hc, Nat.shiftRight_eq_div_pow]
  rw [decodeQuantum_alphabet enc h _ (by omega), if_neg (by simp),
    decodeQuantum_alphabet enc h _ (by omega), if_neg (by simp),
    decodeQuantum_alphabet enc h _ (by omega), if_neg (by simp),
    decodeQuantum_alphabet enc h _ (by omega), if_pos (by simp)]
  simp only [Encoding.convertQuantum, List.nil_append, List.cons_append, List.getD_cons_zero,
    List.getD_cons_succ, Nat.shiftRight_eq_div_pow]
  rw [shl_or4 _ _ _ _ (by omega) (by omega) (by omega)]
  simp only [Quantum.mk.injEq, true_and, and_true, List.cons.injEq, Fin.ofNat, Fin.mk.injEq]
  omega

/-- A final group of two bytes: three alphabet bytes and one `'='`. -/
theorem decodeQuantum_two (enc : Encoding) (h : enc.Regular) (a b : GoByte) (si : Nat) :
    enc.decodeQuantum [] (enc.EncodeToString [a, b]) si = ⟨[], si + 4, [a, b], none⟩ := by
  obtain ⟨a, ha⟩ := a
  obtain ⟨b, hb⟩ := b
  obtain ⟨-, hp, hd, hs⟩ := id h
  simp only [Encoding.EncodeToString, List.cons_append, List.nil_append, and_0x3F,
    shl_or2 a b hb, Nat.shiftRight_eq_div_pow, hp]
  rw [decodeQuantum_alphabet enc h _ (by omega), if_neg (by simp),
    decodeQuantum_alphabet enc h _ (by omega), if_neg (by simp),
    decodeQuantum_alphabet enc h _ (by omega), if_neg (by simp)]
  rw [Encoding.decodeQuantum]
  simp only [hd, hp, ne_eq, not_true_eq_false, if_false, Encoding.afterPadding, skipNewlines,
    Encoding.convertQuantum, hs, List.nil_append, List.cons_append, List.getD_cons_zero,
    List.getD_cons_succ, List.length_cons, List.length_nil, Nat.shiftRight_eq_div_pow]
  rw [show ([] : List Nat).getD 0 0 = 0 from rfl,
    shl_or4 _ _ _ 0 (by omega) (by omega) (by omega)]
  simp [Fin.ofNat]
  omega

theorem skipNewlines_nil (si : Nat) : skipNewlines [] si = ([], si) := rfl

theorem skipNewlines_pad (rest : List GoByte) (si : Nat) :
    skipNewlines (61 :: rest) si = (61 :: rest, si) := by
  rw [skipNewlines, if_neg (by decide)]

/-- The padding branch of `decodeQuantum` after two sextets: `"=="` is read. -/
theorem decodeQuantum_pad2 (enc : Encoding) (h : enc.Regular) (d0 d1 : Nat)
    (rest : List GoByte) (si : Nat) :
    enc.decodeQuantum [d0, d1] (61 :: 61 :: rest) si = enc.afterPadding [d0, d1] rest (si + 2) := by
  obtain ⟨-, hp, hd, -⟩ := id h
  rw [Encoding.decodeQuantum]
  rw [if_neg (by simp [hd]), if_neg (by decide), if_neg (by simp [hp])]
  simp only [List.length_cons, List.length_nil, skipNewlines_pad, hp, ne_eq, not_true_eq_false,
    if_false]

/-- A final group of one byte: two alphabet bytes and `"=="`. -/
theorem decodeQuantum_one (enc : Encoding) (h : enc.Regular) (a : GoByte) (si : Nat) :
    enc.decodeQuantum [] (enc.EncodeToString [a]) si = ⟨[], si + 4, [a], none⟩ := by
  obtain ⟨a, ha⟩ := a
  obtain ⟨-, hp, hd, hs⟩ := id h
  simp only [Encoding.EncodeToString, List.cons_append, List.nil_append, and_0x3F,
    Nat.shiftLeft_eq, Nat.shiftRight_eq_div_pow, hp]
  rw [decodeQuantum_alphabet enc h _ (by omega), if_neg (by simp),
    decodeQuantum_alphabet enc h _ (by omega), if_neg (by simp)]
  rw [List.nil_append, List.cons_append, List.nil_append, decodeQuantum_pad2 enc h]
  simp only [Encoding.afterPadding, skipNewlines_nil, Encoding.convertQuantum, hs,
    List.getD_cons_zero, List.getD_cons_succ, List.length_cons, List.length_nil,
    Nat.shiftRight_eq_div_pow]
  rw [show ([] : List Nat).getD 0 0 = 0 from rfl, show ([] : List Nat).getD 1 0 = 0 from rfl,
    shl_or4 _ _ 0 0 (by omega) (by omega) (by omega)]
  simp only [Quantum.mk.injEq, true_and, and_true, List.cons.injEq, Fin.ofNat,
    Fin.mk.injEq, Bool.false_and, Bool.false_eq_true, if_false]
  omega

theorem EncodeToString_cons3 (enc : Encoding) (a b c : GoByte) (rest : List GoByte) :
    enc.EncodeToString (a :: b :: c :: rest) =
      enc.EncodeToString [a, b, c] ++ enc.EncodeToString rest := by
  simp [Encoding.EncodeToString]

theorem EncodeToString_length3 (enc : Encoding) (a b c : GoByte) :
    (enc.EncodeToString [a, b, c]).length = 4 := by
  simp [Encoding.EncodeToString]

/-- Decoding an encoded string gives the string back, with no error, whatever the
start offset and for any fuel that covers the encoded length. -/
theorem Decode_EncodeToString (enc : Encoding) (h : enc.Regular) (s : List GoByte) :
    ∀ (fuel si : Nat), (enc.EncodeToString s).length ≤ fuel →
      enc.Decode fuel (enc.EncodeToString s) si = (s, none) := by
  refine Encoding.EncodeToString.induct enc
    (fun s => ∀ (fuel si : Nat), (enc.EncodeToString s).length ≤ fuel →
      enc.Decode fuel (enc.EncodeToString s) si = (s, none)) ?_ ?_ ?_ ?_ s
  · intro a b c rest ih fuel si hf
    rw [EncodeToString_cons3] at hf ⊢
    have h4 := EncodeToString_length3 enc a b c
    rw [List.length_append, h4] at hf
    obtain ⟨fuel, rfl⟩ : ∃ k, fuel = k + 1 := ⟨fuel - 1, by omega⟩
    have hq := decodeQuantum_full enc h a b c (enc.EncodeToString rest) si
    have ih' := ih fuel (si + 4) (by omega)
    match hl : enc.EncodeToString [a, b, c] ++ enc.EncodeToString rest with
    | [] =>
      have := congrArg List.length hl
      simp [h4] at this
    | x :: xs =>
      rw [hl] at hq
      simp only [Encoding.Decode, hq, ih', List.cons_append, List.nil_append]
  · intro a b fuel si hf
    have hq := decodeQuantum_two enc h a b si
    obtain ⟨-, hp, -, -⟩ := id h
    match hl : enc.EncodeToString [a, b] with
    | [] => simp [Encoding.EncodeToString, hp] at hl
    | x :: xs =>
      rw [hl] at hq hf
      obtain ⟨fuel, rfl⟩ : ∃ k, fuel = k + 1 := ⟨fuel - 1, by simp at hf; omega⟩
      cases fuel <;> simp [Encoding.Decode, hq]
  · intro a fuel si hf
    have hq := decodeQuantum_one enc h a si
    obtain ⟨-, hp, -, -⟩ := id h
    match hl : enc.EncodeToString [a] with
    | [] => simp [Encoding.EncodeToString, hp] at hl
    | x :: xs =>
      rw [hl] at hq hf
      obtain ⟨fuel, rfl⟩ : ∃ k, fuel = k + 1 := ⟨fuel - 1, by simp at hf; omega⟩
      cases fuel <;> simp [Encoding.Decode, hq]
  · intro fuel si _
    cases fuel <;> simp [Encoding.EncodeToString, Encoding.Decode]

/-- For a regular encoding `DecodeString` inverts `EncodeToString`. -/
theorem DecodeString_EncodeToString (enc : Encoding) (h : enc.Regular) (s : List GoByte) :
    enc.DecodeString (enc.EncodeToString s) = (s, none) :=
  Decode_EncodeToString enc h s _ 0 (Nat.le_refl _)

/-! ## The fuel of `Decode` never runs out -/

theorem skipNewlines_length (l : List GoByte) :
    ∀ si : Nat, (skipNewlines l si).1.length ≤ l.length := by
  induction l with
  | nil => intro si; simp [skipNewlines]
  | cons c rest ih =>
    intro si
    rw [skipNewlines]
    split
    · exact Nat.le_succ_of_le (ih (si + 1))
    · exact Nat.le_refl _

theorem convertQuantum_rest (enc : Encoding) (dbuf : List Nat) (dlen : Nat)
    (rest : List GoByte) (si : Nat) (err : Option Nat) :
    (enc.convertQuantum dbuf dlen rest si err).rest = rest := by
  unfold Encoding.convertQuantum
  simp only
  split
  · rfl
  · split <;> rfl
  · split <;> rfl
  · rfl

theorem afterPadding_rest_length (enc : Encoding) (dbuf : List Nat) (rest : List GoByte)
    (si : Nat) : (enc.afterPadding dbuf rest si).rest.length ≤ rest.length := by
  have h := skipNewlines_length rest si
  unfold Encoding.afterPadding
  simp only
  split
  · rw [convertQuantum_rest]
    exact Nat.zero_le _
  · rename_i c more heq
    rw [convertQuantum_rest, ← heq]
    exact h

/-- A call of `decodeQuantum` on a non-empty source consumes at least one byte. -/
theorem decodeQuantum_rest_length (enc : Encoding) (src : List GoByte) :
    ∀ (dbuf : List Nat) (si : Nat),
      (enc.decodeQuantum dbuf src si).rest.length ≤ src.length - 1 := by
  induction src with
  | nil =>
    intro dbuf si
    rw [Encoding.decodeQuantum]
    split
    · exact Nat.le_refl _
    · split
      · exact Nat.le_refl _
      · rw [convertQuantum_rest]
        exact Nat.le_refl _
  | cons c rest ih =>
    intro dbuf si
    have hsub : ∀ (d : List Nat) (k : Nat),
        (enc.decodeQuantum d rest k).rest.length ≤ rest.length :=
      fun d k => le_trans (ih d k) (Nat.sub_le _ _)
    rw [Encoding.decodeQuantum]
    simp only [List.length_cons, Nat.add_sub_cancel]
    split
    · split
      · rw [convertQuantum_rest]
      · exact hsub _ _
    · split
      · exact hsub _ _
      · split
        · exact Nat.le_refl _
        · split
          · exact Nat.le_refl _
          · exact Nat.le_refl _
          · have h := skipNewlines_length rest (si + 1)
            split
            · exact Nat.zero_le _
            · rename_i c2 more heq
              split
              · rw [← heq]
                exact h
              · refine le_trans (afterPadding_rest_length enc dbuf more _) ?_
                rw [heq, List.length_cons] at h
                omega
          · exact afterPadding_rest_length enc dbuf rest (si + 1)

/-- Any fuel that covers the length of the source gives the same result: the
bound in `DecodeString` never cuts the loop of `Decode` short. -/
theorem Decode_fuel_irrelevant (enc : Encoding) :
    ∀ (fuel1 fuel2 : Nat) (src : List GoByte) (si : Nat),
      src.length ≤ fuel1 → src.length ≤ fuel2 →
      enc.Decode fuel1 src si = enc.Decode fuel2 src si := by
  intro fuel1
  induction fuel1 with
  | zero =>
    intro fuel2 src si h1 _
    have hs : src = [] := List.length_eq_zero.mp (Nat.le_zero.mp h1)
    subst hs
    cases fuel2 <;> rfl
  | succ f1 ih =>
    intro fuel2 src si h1 h2
    cases src with
    | nil => cases fuel2 <;> rfl
    | cons c rest =>
      cases fuel2 with
      | zero => simp at h2
      | succ f2 =>
        have hq := decodeQuantum_rest_length enc (c :: rest) [] si
        simp only [List.length_cons, Nat.add_sub_cancel] at hq h1 h2
        simp only [Encoding.Decode]
        cases he : (enc.decodeQuantum [] (c :: rest) si).err with
        | some e => rfl
        | none =>
          simp only
          rw [ih f2 _ _ (by omega) (by omega)]

/-! ## `strings.Split` -/

theorem Split_ne_nil (s : GoString) (sep : GoByte) : Split s sep ≠ [] := by
  induction s with
  | nil => simp [Split]
  | cons c rest ih =>
    rw [Split]
    split
    · simp
    · split <;> simp

/-- A string without the separator is a single field. -/
theorem Split_of_not_mem (s : GoString) (sep : GoByte) (h : sep ∉ s) : Split s sep = [s] := by
  induction s with
  | nil => rfl
  | cons c rest ih =>
    have hc : c ≠ sep := fun e => h (by simp [e])
    have hr : sep ∉ rest := fun e => h (by simp [e])
    rw [Split, if_neg hc, ih hr]

/-- The first field ends at the first separator. -/
theorem Split_append_sep (a b : GoString) (sep : GoByte) (h : sep ∉ a) :
    Split (a ++ sep :: b) sep = a :: Split b sep := by
  induction a with
  | nil => simp [Split]
  | cons c rest ih =>
    have hc : c ≠ sep := fun e => h (by simp [e])
    have hr : sep ∉ rest := fun e => h (by simp [e])
    rw [List.cons_append, Split, if_neg hc, ih hr]

/-! ## Scan handles -/

/-- C1: for every repository string and digest string that both contain no `'|'`
byte, `parseScanResponseID (createScanResponseID repository digest)` returns
exactly `(repository, digest)`. -/
theorem scan_handle_round_trip (repository shaDigest : GoString)
    (hr : (124 : GoByte) ∉ repository) (hd : (124 : GoByte) ∉ shaDigest) :
    parseScanResponseID (createScanResponseID repository shaDigest) =
      some (repository, shaDigest) := by
  unfold parseScanResponseID createScanResponseID
  rw [DecodeString_EncodeToString URLEncoding URLEncoding_regular]
  simp only [sprintfPipe]
  rw [Split_append_sep repository shaDigest 124 hr, Split_of_not_mem shaDigest 124 hd]
  rfl

/-- The round trip at the handle of `("sysdig/agent", "sha256:0a1b")`. -/
theorem scan_handle_round_trip_witness :
    ((124 : GoByte) ∉ gostr "sysdig/agent" ∧ (124 : GoByte) ∉ gostr "sha256:0a1b") ∧
      parseScanResponseID (createScanResponseID (gostr "sysdig/agent") (gostr "sha256:0a1b")) =
        some (gostr "sysdig/agent", gostr "sha256:0a1b") :=
  ⟨⟨by decide, by decide⟩,
    scan_handle_round_trip (gostr "sysdig/agent") (gostr "sha256:0a1b") (by decide) (by decide)⟩

/-! ## The vulnerability report -/

theorem fillArtifactLoop_Severity (repository : GoString) (result : harbor.VulnerabilityReport)
    (details : List secure.ImageDetail) :
    (fillArtifactLoop repository result details).Severity = result.Severity := by
  induction details with
  | nil => rfl
  | cons d rest ih =>
    rw [fillArtifactLoop]
    split
    · rfl
    · exact ih

theorem fillArtifactLoop_Vulnerabilities (repository : GoString)
    (result : harbor.VulnerabilityReport) (details : List secure.ImageDetail) :
    (fillArtifactLoop repository result details).Vulnerabilities = result.Vulnerabilities := by
  induction details with
  | nil => rfl
  | cons d rest ih =>
    rw [fillArtifactLoop]
    split
    · rfl
    · exact ih

/-- A list without a nil entry is a list of records. -/
theorem records_of_no_nil (l : List (Option secure.Vulnerability)) (h : none ∉ l) :
    ∃ vs : List secure.Vulnerability, l = vs.map some := by
  induction l with
  | nil => exact ⟨[], rfl⟩
  | cons e rest ih =>
    obtain ⟨vs, hvs⟩ := ih (fun hm => h (List.mem_cons_of_mem _ hm))
    cases e with
    | none => exact absurd (List.mem_cons_self _ _) h
    | some v => exact ⟨v :: vs, by rw [hvs]; rfl⟩

/-- On a list without a nil entry the loop of `fillVulnerabilities` is the fold
of its body over the translated records. -/
theorem fillVulnerabilitiesLoop_records (vs : List secure.Vulnerability) :
    ∀ result : harbor.VulnerabilityReport,
      fillVulnerabilitiesLoop result (vs.map some) =
        some ((vs.map vulnerabilityItemOf).foldl fillVulnerability result) := by
  induction vs with
  | nil => intro result; rfl
  | cons v rest ih =>
    intro result
    simp only [List.map_cons, fillVulnerabilitiesLoop, toHarborVulnerabilityItem,
      List.foldl_cons]
    exact ih _

/-- On a list with a nil entry the loop of `fillVulnerabilities` panics. -/
theorem fillVulnerabilitiesLoop_nil_entry (l : List (Option secure.Vulnerability)) :
    ∀ result : harbor.VulnerabilityReport, none ∈ l → fillVulnerabilitiesLoop result l = none := by
  induction l with
  | nil => intro result h; simp at h
  | cons e rest ih =>
    intro result h
    cases e with
    | none => rfl
    | some v =>
      simp only [fillVulnerabilitiesLoop, toHarborVulnerabilityItem]
      refine ih _ ?_
      rcases List.mem_cons.mp h with h | h
      · cases h
      · exact h

/-- When the handle parses and `GetVulnerabilities` succeeds with a list of
records, the report is the fold of the loop body over the translated records,
passed through `fillArtifact`; the error of `GetImage` plays no part. -/
theorem GetVulnerabilityReport_ok {σ : Type} (backendVersion : GoString) (c : secure.Client σ)
    (scanResponseID repository shaDigest : GoString) (st st1 : σ)
    (vs : List secure.Vulnerability)
    (hparse : parseScanResponseID scanResponseID = some (repository, shaDigest))
    (hget : c.GetVulnerabilities shaDigest st = ((⟨vs.map some⟩, none), st1)) :
    GetVulnerabilityReport backendVersion c scanResponseID st =
      Outcome.returned ((fillArtifactLoop repository
          ((vs.map vulnerabilityItemOf).foldl fillVulnerability (initialReport backendVersion))
          (c.GetImage shaDigest st1).1.1.ImageDetail, none), (c.GetImage shaDigest st1).2) := by
  simp only [GetVulnerabilityReport, hparse, fillVulnerabilities, hget,
    fillVulnerabilitiesLoop_records, fillArtifact]
  rfl

/-- When the handle parses and `GetVulnerabilities` succeeds with a list that
has a nil entry, the call panics, the backend being in the state that
`GetVulnerabilities` left. -/
theorem GetVulnerabilityReport_nil_entry {σ : Type} (backendVersion : GoString)
    (c : secure.Client σ) (scanResponseID repository shaDigest : GoString) (st st1 : σ)
    (report : secure.VulnerabilityReport)
    (hparse : parseScanResponseID scanResponseID = some (repository, shaDigest))
    (hget : c.GetVulnerabilities shaDigest st = ((report, none), st1))
    (hnil : none ∈ report.Vulnerabilities) :
    GetVulnerabilityReport backendVersion c scanResponseID st = Outcome.panicked st1 := by
  simp only [GetVulnerabilityReport, hparse, fillVulnerabilities, hget,
    fillVulnerabilitiesLoop_nil_entry _ _ hnil]

/-- When the handle parses and `GetVulnerabilities` fails with `e`, the call
fails with the error that the `switch` of `fillVulnerabilities` picks. -/
theorem GetVulnerabilityReport_err {σ : Type} (backendVersion : GoString) (c : secure.Client σ)
    (scanResponseID repository shaDigest : GoString) (st st1 : σ)
    (report : secure.VulnerabilityReport) (e : GoError)
    (hparse : parseScanResponseID scanResponseID = some (repository, shaDigest))
    (hget : c.GetVulnerabilities shaDigest st = ((report, some e), st1)) :
    GetVulnerabilityReport backendVersion c scanResponseID st =
      Outcome.returned ((harbor.VulnerabilityReport.zero,
        some (if e = secure.ErrImageNotFound then ErrScanRequestIDNotFound
          else if e = secure.ErrVulnerabiltyReportNotReady then ErrVulnerabiltyReportNotReady
          else e)), st1) := by
  simp only [GetVulnerabilityReport, hparse, fillVulnerabilities, hget]
  split_ifs <;> rfl

theorem fillVulnerability_Vulnerabilities (result : harbor.VulnerabilityReport)
    (item : harbor.VulnerabilityItem) :
    (fillVulnerability result item).Vulnerabilities = result.Vulnerabilities ++ [item] := by
  unfold fillVulnerability
  simp only
  split <;> rfl

theorem foldl_fillVulnerability_Vulnerabilities (items : List harbor.VulnerabilityItem) :
    ∀ result : harbor.VulnerabilityReport,
      (items.foldl fillVulnerability result).Vulnerabilities =
        result.Vulnerabilities ++ items := by
  induction items with
  | nil => intro result; simp
  | cons v rest ih =>
    intro result
    rw [List.foldl_cons, ih, fillVulnerability_Vulnerabilities]
    simp

/-- The severity after one pass of the loop body: the item's severity when its
rank is strictly higher, the old severity otherwise. -/
theorem fillVulnerability_Severity (result : harbor.VulnerabilityReport)
    (item : harbor.VulnerabilityItem) :
    (fillVulnerability result item).Severity =
      if severities result.Severity < severities item.Severity then item.Severity
      else result.Severity := by
  unfold fillVulnerability
  simp only
  split <;> rfl

theorem fillVulnerability_Artifact (result : harbor.VulnerabilityReport)
    (item : harbor.VulnerabilityItem) :
    (fillVulnerability result item).Artifact = result.Artifact ∧
      (fillVulnerability result item).GeneratedAt = result.GeneratedAt := by
  unfold fillVulnerability
  simp only
  split <;> exact ⟨rfl, rfl⟩

/-- The loop of `fillVulnerabilities` touches neither the artifact nor the
generation time. -/
theorem foldl_fillVulnerability_Artifact (items : List harbor.VulnerabilityItem) :
    ∀ result : harbor.VulnerabilityReport,
      (items.foldl fillVulnerability result).Artifact = result.Artifact ∧
        (items.foldl fillVulnerability result).GeneratedAt = result.GeneratedAt := by
  induction items with
  | nil => intro result; exact ⟨rfl, rfl⟩
  | cons v rest ih =>
    intro result
    rw [List.foldl_cons]
    obtain ⟨h1, h2⟩ := ih (fillVulnerability result v)
    obtain ⟨h3, h4⟩ := fillVulnerability_Artifact result v
    exact ⟨h1.trans h3, h2.trans h4⟩

/-- The rank of the running severity never decreases and bounds every item. -/
theorem foldl_fillVulnerability_rank (items : List harbor.VulnerabilityItem) :
    ∀ result : harbor.VulnerabilityReport,
      severities result.Severity ≤ severities (items.foldl fillVulnerability result).Severity ∧
        ∀ v ∈ items, severities v.Severity ≤
          severities (items.foldl fillVulnerability result).Severity := by
  induction items with
  | nil => intro result; simp
  | cons v rest ih =>
    intro result
    rw [List.foldl_cons]
    obtain ⟨h1, h2⟩ := ih (fillVulnerability result v)
    have hs := fillVulnerability_Severity result v
    have h3 : severities result.Severity ≤ severities (fillVulnerability result v).Severity ∧
        severities v.Severity ≤ severities (fillVulnerability result v).Severity := by
      rw [hs]
      split_ifs with hlt
      · exact ⟨le_of_lt hlt, le_refl _⟩
      · exact ⟨le_refl _, not_lt.mp hlt⟩
    refine ⟨le_trans h3.1 h1, ?_⟩
    intro w hw
    rcases List.mem_cons.mp hw with rfl | hw
    · exact le_trans h3.2 h1
    · exact h2 w hw

/-- The running severity is the starting one, or the severity of an item whose
rank is strictly above the starting rank. -/
theorem foldl_fillVulnerability_strict (items : List harbor.VulnerabilityItem) :
    ∀ result : harbor.VulnerabilityReport,
      (items.foldl fillVulnerability result).Severity = result.Severity ∨
        ∃ v ∈ items, v.Severity = (items.foldl fillVulnerability result).Severity ∧
          severities result.Severity <
            severities (items.foldl fillVulnerability result).Severity := by
  induction items with
  | nil => intro result; exact Or.inl rfl
  | cons v rest ih =>
    intro result
    rw [List.foldl_cons]
    have hs := fillVulnerability_Severity result v
    rcases ih (fillVulnerability result v) with h | ⟨w, hw, hweq, hlt⟩
    · rw [h, hs]
      by_cases hcmp : severities result.Severity < severities v.Severity
      · rw [if_pos hcmp]
        exact Or.inr ⟨v, List.mem_cons_self _ _, rfl, hcmp⟩
      · rw [if_neg hcmp]
        exact Or.inl rfl
    · refine Or.inr ⟨w, List.mem_cons_of_mem _ hw, hweq, lt_of_le_of_lt ?_ hlt⟩
      rw [hs]
      split_ifs with hcmp
      · exact le_of_lt hcmp
      · exact le_refl _

/-- A value read from an association list is the value of one of its entries. -/
theorem lookup_mem (l : List (harbor.Severity × Int)) (k : harbor.Severity) (v : Int)
    (h : l.lookup k = some v) : (k, v) ∈ l := by
  induction l with
  | nil => simp at h
  | cons e rest ih =>
    obtain ⟨a, b⟩ := e
    rw [List.lookup_cons] at h
    by_cases hk : k = a
    · subst hk
      simp only [beq_self_eq_true] at h
      cases h
      exact List.mem_cons_self _ _
    · have hne : (k == a) = false := by simpa using hk
      rw [hne] at h
      exact List.mem_cons_of_mem _ (ih h)

/-- A rank is never negative. -/
theorem severities_nonneg (k : harbor.Severity) : 0 ≤ severities k := by
  unfold severities
  cases h : severitiesEntries.lookup k with
  | none => exact le_refl _
  | some v =>
    have hmem := lookup_mem _ _ _ h
    have hall : ∀ e ∈ severitiesEntries, 0 ≤ e.2 := by decide
    exact hall _ hmem

/-- Two severities of the same positive rank are the same string. -/
theorem severities_inj_pos (a b : harbor.Severity) (ha : 0 < severities a)
    (h : severities a = severities b) : a = b := by
  have hb : 0 < severities b := h ▸ ha
  unfold severities at ha hb h
  cases h1 : severitiesEntries.lookup a with
  | none => rw [h1] at ha; exact absurd ha (lt_irrefl _)
  | some va =>
    cases h2 : severitiesEntries.lookup b with
    | none => rw [h2] at hb; exact absurd hb (lt_irrefl _)
    | some vb =>
      rw [h1, h2] at h
      simp only [Option.getD_some] at h
      have hma := lookup_mem _ _ _ h1
      have hmb := lookup_mem _ _ _ h2
      have hall : ∀ e1 ∈ severitiesEntries, ∀ e2 ∈ severitiesEntries,
          e1.2 = e2.2 → e1.1 = e2.1 := by decide
      exact hall _ hma _ hmb h

/-- The severity that the loop of `fillVulnerabilities` reaches from `UNKNOWN`:
it bounds the rank of every record, it is the severity of a record when some
record has a positive rank, and it is `UNKNOWN` when none has. -/
theorem aggregate_severity (backendVersion : GoString) (vs : List secure.Vulnerability) :
    (∀ v ∈ vs, severities v.Severity ≤ severities
      ((vs.map vulnerabilityItemOf).foldl fillVulnerability
        (initialReport backendVersion)).Severity) ∧
    ((∃ v ∈ vs, 0 < severities v.Severity) →
      ∃ v ∈ vs, v.Severity = ((vs.map vulnerabilityItemOf).foldl fillVulnerability
        (initialReport backendVersion)).Severity) ∧
    ((∀ v ∈ vs, severities v.Severity ≤ 0) →
      ((vs.map vulnerabilityItemOf).foldl fillVulnerability
        (initialReport backendVersion)).Severity = harbor.UNKNOWN) := by
  have hrank := (foldl_fillVulnerability_rank (vs.map vulnerabilityItemOf)
    (initialReport backendVersion)).2
  have hstrict := foldl_fillVulnerability_strict (vs.map vulnerabilityItemOf)
    (initialReport backendVersion)
  have hinit : (initialReport backendVersion).Severity = harbor.UNKNOWN := rfl
  have h0 : severities harbor.UNKNOWN = 0 := by decide
  rw [hinit] at hstrict
  refine ⟨?_, ?_, ?_⟩
  · intro v hv
    exact hrank (vulnerabilityItemOf v) (List.mem_map_of_mem _ hv)
  · rintro ⟨v, hv, hpos⟩
    rcases hstrict with h | ⟨w, hw, hweq, -⟩
    · have := hrank (vulnerabilityItemOf v) (List.mem_map_of_mem _ hv)
      rw [h, h0] at this
      exact absurd hpos (not_lt.mpr this)
    · obtain ⟨u, hu, rfl⟩ := List.mem_map.mp hw
      exact ⟨u, hu, hweq⟩
  · intro hall
    rcases hstrict with h | ⟨w, hw, hweq, hlt⟩
    · exact h
    · obtain ⟨u, hu, rfl⟩ := List.mem_map.mp hw
      have hle := hall u hu
      rw [h0, ← hweq] at hlt
      exact absurd hlt (not_lt.mpr hle)

/-- C2, as stated, fails: the backend reports one record whose severity
`Informational` is not a key of the ranking table; the report succeeds with
severity `UNKNOWN`, which is the severity of no item of the list.  And on the
non-empty list whose one entry is nil the call panics: there is no report. -/
theorem severity_aggregation_counterexample :
    (GetVulnerabilityReport (gostr "1.0")
        (reportingClient [vulnerabilityOf "CVE-2020-1971" "Informational"]) agentHandle
        ()).result.map (fun r => (r.1.1.Severity, r.1.2)) = some (harbor.UNKNOWN, none) ∧
      (¬ ∃ v ∈ [vulnerabilityOf "CVE-2020-1971" "Informational"],
        v.Severity = harbor.UNKNOWN) ∧
      GetVulnerabilityReport (gostr "1.0") (entriesClient [none] []) agentHandle () =
        Outcome.panicked () := by
  decide

/-- C2, amended: whenever the handle parses and `GetVulnerabilities` succeeds
with a list that has no nil entry, the call succeeds and no record has a rank
strictly higher than the report's severity; the report's severity is the
severity of a record of the list when some record has a positive rank (a key of
the ranking table other than `UNKNOWN`), and it is `UNKNOWN` when no record has
(every severity is `UNKNOWN` or outside the table, or the list is empty). -/
theorem severity_aggregation {σ : Type} (backendVersion : GoString) (c : secure.Client σ)
    (scanResponseID repository shaDigest : GoString) (st st1 : σ)
    (backendReport : secure.VulnerabilityReport)
    (hparse : parseScanResponseID scanResponseID = some (repository, shaDigest))
    (hget : c.GetVulnerabilities shaDigest st = ((backendReport, none), st1))
    (hnil : none ∉ backendReport.Vulnerabilities) :
    ∃ report st2,
      GetVulnerabilityReport backendVersion c scanResponseID st =
        Outcome.returned ((report, none), st2) ∧
      (∀ v, some v ∈ backendReport.Vulnerabilities →
        severities v.Severity ≤ severities report.Severity) ∧
      ((∃ v, some v ∈ backendReport.Vulnerabilities ∧ 0 < severities v.Severity) →
        ∃ v, some v ∈ backendReport.Vulnerabilities ∧ v.Severity = report.Severity) ∧
      ((∀ v, some v ∈ backendReport.Vulnerabilities → severities v.Severity ≤ 0) →
        report.Severity = harbor.UNKNOWN) ∧
      (backendReport.Vulnerabilities = [] → report.Severity = harbor.UNKNOWN) := by
  obtain ⟨vs, hvs⟩ := records_of_no_nil _ hnil
  obtain ⟨l⟩ := backendReport
  simp only at hvs
  subst hvs
  have hmem : ∀ v, some v ∈ vs.map some ↔ v ∈ vs := by
    intro v
    simp
  obtain ⟨hrank, hpos, hzero⟩ := aggregate_severity backendVersion vs
  refine ⟨_, _, GetVulnerabilityReport_ok backendVersion c scanResponseID repository shaDigest
    st st1 vs hparse hget, ?_⟩
  rw [fillArtifactLoop_Severity]
  refine ⟨?_, ?_, ?_, ?_⟩
  · intro v hv
    exact hrank v ((hmem v).mp hv)
  · rintro ⟨v, hv, hp⟩
    obtain ⟨w, hw, hweq⟩ := hpos ⟨v, (hmem v).mp hv, hp⟩
    exact ⟨w, (hmem w).mpr hw, hweq⟩
  · intro hall
    exact hzero (fun v hv => hall v ((hmem v).mpr hv))
  · intro hempty
    refine hzero (fun v hv => ?_)
    have hin : some v ∈ vs.map some := (hmem v).mpr hv
    have hempty2 : vs.map some = [] := hempty
    rw [hempty2] at hin
    exact absurd hin (List.not_mem_nil _)

/-- The amended C2 at the handle of `sysdig/agent` and a backend that reports
the severities `[Low, Critical, Medium]`: the report's severity is `CRITICAL`. -/
theorem severity_aggregation_witness :
    (GetVulnerabilityReport (gostr "1.0") (reportingClient threeFindings) agentHandle
        ()).result.map (fun r => r.1.1.Severity) = some harbor.CRITICAL ∧
      none ∉ threeFindings.map some ∧
      ∃ report st2,
        GetVulnerabilityReport (gostr "1.0") (reportingClient threeFindings) agentHandle () =
          Outcome.returned ((report, none), st2) ∧
        (∀ v, some v ∈ threeFindings.map some →
          severities v.Severity ≤ severities report.Severity) ∧
        ((∃ v, some v ∈ threeFindings.map some ∧ 0 < severities v.Severity) →
          ∃ v, some v ∈ threeFindings.map some ∧ v.Severity = report.Severity) ∧
        ((∀ v, some v ∈ threeFindings.map some → severities v.Severity ≤ 0) →
          report.Severity = harbor.UNKNOWN) ∧
        (threeFindings.map some = [] → report.Severity = harbor.UNKNOWN) :=
  ⟨by decide, by decide,
    severity_aggregation (gostr "1.0") (reportingClient threeFindings) agentHandle
      (gostr "sysdig/agent") (gostr "sha256:0a1b") () () ⟨threeFindings.map some⟩
      (by decide) rfl (by decide)⟩

/-- C3: for every handle that parses, if the backend's `GetVulnerabilities`
returns `secure.ErrImageNotFound` the call fails with `ErrScanRequestIDNotFound`;
if it returns `secure.ErrVulnerabiltyReportNotReady` the call fails with the
adapter's `ErrVulnerabiltyReportNotReady`; if it returns any other error `e`
the call fails with exactly `e`. -/
theorem error_mapping {σ : Type} (backendVersion : GoString) (c : secure.Client σ)
    (scanResponseID repository shaDigest : GoString) (st st1 : σ)
    (backendReport : secure.VulnerabilityReport) (e : GoError)
    (hparse : parseScanResponseID scanResponseID = some (repository, shaDigest))
    (hget : c.GetVulnerabilities shaDigest st = ((backendReport, some e), st1)) :
    ∃ report err st2,
      GetVulnerabilityReport backendVersion c scanResponseID st =
        Outcome.returned ((report, some err), st2) ∧
      (e = secure.ErrImageNotFound → err = ErrScanRequestIDNotFound) ∧
      (e = secure.ErrVulnerabiltyReportNotReady → err = ErrVulnerabiltyReportNotReady) ∧
      (e ≠ secure.ErrImageNotFound → e ≠ secure.ErrVulnerabiltyReportNotReady → err = e) := by
  refine ⟨_, _, _, GetVulnerabilityReport_err backendVersion c scanResponseID repository
    shaDigest st st1 backendReport e hparse hget, ?_, ?_, ?_⟩
  · intro h
    rw [if_pos h]
  · intro h
    rw [h]
    rfl
  · intro h1 h2
    rw [if_neg h1, if_neg h2]

/-- C3 at the handle of `sysdig/agent` and a backend that is still analysing the
image: the call fails with the adapter's `ErrVulnerabiltyReportNotReady`. -/
theorem error_mapping_witness :
    (GetVulnerabilityReport (gostr "1.0") (failingClient secure.ErrVulnerabiltyReportNotReady)
        agentHandle ()).result.map (fun r => r.1.2) =
        some (some ErrVulnerabiltyReportNotReady) ∧
      ∃ report err st2,
        GetVulnerabilityReport (gostr "1.0")
          (failingClient secure.ErrVulnerabiltyReportNotReady) agentHandle () =
            Outcome.returned ((report, some err), st2) ∧
        (secure.ErrVulnerabiltyReportNotReady = secure.ErrImageNotFound →
          err = ErrScanRequestIDNotFound) ∧
        (secure.ErrVulnerabiltyReportNotReady = secure.ErrVulnerabiltyReportNotReady →
          err = ErrVulnerabiltyReportNotReady) ∧
        (secure.ErrVulnerabiltyReportNotReady ≠ secure.ErrImageNotFound →
          secure.ErrVulnerabiltyReportNotReady ≠ secure.ErrVulnerabiltyReportNotReady →
          err = secure.ErrVulnerabiltyReportNotReady) :=
  ⟨by decide,
    error_mapping (gostr "1.0") (failingClient secure.ErrVulnerabiltyReportNotReady) agentHandle
      (gostr "sysdig/agent") (gostr "sha256:0a1b") () () ⟨[]⟩
      secure.ErrVulnerabiltyReportNotReady (by decide) rfl⟩

/-- C4: whenever the handle parses, `GetVulnerabilities` succeeds and
`GetVulnerabilityReport` succeeds, the report's `Vulnerabilities` has the length
of the backend's list, and for every `i` the backend's `i`-th entry is a record
and the report's `i`-th item is `toHarborVulnerabilityItem` of it, that is
`ID = Vuln`, `Package = PackageName`, `Version = PackageVersion`,
`FixVersion = Fix`, `Severity` the record's severity and `Links = [URL]`.  The
call does succeed when the backend's list has no nil entry. -/
theorem translation_in_order {σ : Type} (backendVersion : GoString) (c : secure.Client σ)
    (scanResponseID repository shaDigest : GoString) (st st1 : σ)
    (backendReport : secure.VulnerabilityReport)
    (hparse : parseScanResponseID scanResponseID = some (repository, shaDigest))
    (hget : c.GetVulnerabilities shaDigest st = ((backendReport, none), st1)) :
    (none ∉ backendReport.Vulnerabilities →
      ∃ report st2, GetVulnerabilityReport backendVersion c scanResponseID st =
        Outcome.returned ((report, none), st2)) ∧
    ∀ report st2,
      GetVulnerabilityReport backendVersion c scanResponseID st =
        Outcome.returned ((report, none), st2) →
      report.Vulnerabilities.length = backendReport.Vulnerabilities.length ∧
      ∀ i : Nat, i < backendReport.Vulnerabilities.length →
        ∃ (v : secure.Vulnerability) (item : harbor.VulnerabilityItem),
          backendReport.Vulnerabilities[i]? = some (some v) ∧
          report.Vulnerabilities[i]? = some item ∧
          toHarborVulnerabilityItem (some v) = some item ∧
          item.ID = v.Vuln ∧ item.Package = v.PackageName ∧
          item.Version = v.PackageVersion ∧ item.FixVersion = v.Fix ∧
          item.Severity = v.Severity ∧ item.Links = [v.URL] := by
  have hok : ∀ vs : List secure.Vulnerability, backendReport.Vulnerabilities = vs.map some →
      GetVulnerabilityReport backendVersion c scanResponseID st =
        Outcome.returned ((fillArtifactLoop repository
          ((vs.map vulnerabilityItemOf).foldl fillVulnerability (initialReport backendVersion))
          (c.GetImage shaDigest st1).1.1.ImageDetail, none), (c.GetImage shaDigest st1).2) := by
    intro vs hvs
    obtain ⟨l⟩ := backendReport
    simp only at hvs
    subst hvs
    exact GetVulnerabilityReport_ok backendVersion c scanResponseID repository shaDigest
      st st1 vs hparse hget
  constructor
  · intro hnil
    obtain ⟨vs, hvs⟩ := records_of_no_nil _ hnil
    exact ⟨_, _, hok vs hvs⟩
  · intro report st2 hret
    by_cases hnil : none ∈ backendReport.Vulnerabilities
    · rw [GetVulnerabilityReport_nil_entry backendVersion c scanResponseID repository shaDigest
        st st1 backendReport hparse hget hnil] at hret
      cases hret
    · obtain ⟨vs, hvs⟩ := records_of_no_nil _ hnil
      rw [hok vs hvs] at hret
      simp only [Outcome.returned.injEq, Prod.mk.injEq, and_true] at hret
      obtain ⟨hrep, -⟩ := hret
      have hitems : report.Vulnerabilities = vs.map vulnerabilityItemOf := by
        rw [← hrep, fillArtifactLoop_Vulnerabilities, foldl_fillVulnerability_Vulnerabilities]
        rfl
      rw [hitems, hvs]
      refine ⟨by simp, ?_⟩
      intro i hi
      rw [List.length_map] at hi
      refine ⟨vs[i], vulnerabilityItemOf vs[i], ?_, ?_, rfl, rfl, rfl, rfl, rfl, rfl, rfl⟩
      · rw [List.getElem?_map, List.getElem?_eq_getElem hi]
        rfl
      · rw [List.getElem?_map, List.getElem?_eq_getElem hi]
        rfl

/-- C4 at the handle of `sysdig/agent` and a backend that reports three records:
the report lists their translations in the order received. -/
theorem translation_in_order_witness :
    (GetVulnerabilityReport (gostr "1.0") (reportingClient threeFindings) agentHandle
        ()).result.map (fun r => r.1.1.Vulnerabilities.map (fun item => item.ID)) =
        some [gostr "CVE-1", gostr "CVE-2", gostr "CVE-3"] ∧
      (none ∉ threeFindings.map some →
        ∃ report st2, GetVulnerabilityReport (gostr "1.0") (reportingClient threeFindings)
          agentHandle () = Outcome.returned ((report, none), st2)) ∧
      ∀ report st2,
        GetVulnerabilityReport (gostr "1.0") (reportingClient threeFindings) agentHandle () =
          Outcome.returned ((report, none), st2) →
        report.Vulnerabilities.length = (threeFindings.map some).length ∧
        ∀ i : Nat, i < (threeFindings.map some).length →
          ∃ (v : secure.Vulnerability) (item : harbor.VulnerabilityItem),
            (threeFindings.map some)[i]? = some (some v) ∧
            report.Vulnerabilities[i]? = some item ∧
            toHarborVulnerabilityItem (some v) = some item ∧
            item.ID = v.Vuln ∧ item.Package = v.PackageName ∧
            item.Version = v.PackageVersion ∧ item.FixVersion = v.Fix ∧
            item.Severity = v.Severity ∧ item.Links = [v.URL] :=
  ⟨by decide,
    translation_in_order (gostr "1.0") (reportingClient threeFindings) agentHandle
      (gostr "sysdig/agent") (gostr "sha256:0a1b") () () ⟨threeFindings.map some⟩
      (by decide) rfl⟩

/-! ## Credential provisioning -/

/-- C5: for every request whose Basic-auth header decodes to `(user, password)`:
if `AddRegistry registry user password` succeeds, `UpdateRegistry` is not called;
if it fails with `ErrRegistryAlreadyExists`, `UpdateRegistry` is called with the
same arguments and the credential step returns exactly what `UpdateRegistry`
returns; if it fails with any other error `e`, `Scan` fails with exactly `e` and
`UpdateRegistry` is not called. -/
theorem credential_upsert {σ : Type} (c : secure.Client σ) (req : harbor.ScanRequest)
    (user password : GoString) (st : σ)
    (hauth : getUserAndPasswordFrom req.Registry.Authorization = some (user, password)) :
    (∀ st1, c.AddRegistry (getRegistryFrom req) user password st = (none, st1) →
      setupCredentials (recording c) req (st, []) =
        Outcome.returned (none, (st1, [Call.AddRegistry (getRegistryFrom req) user password]))) ∧
    (∀ st1, c.AddRegistry (getRegistryFrom req) user password st =
        (some secure.ErrRegistryAlreadyExists, st1) →
      setupCredentials (recording c) req (st, []) =
        Outcome.returned ((c.UpdateRegistry (getRegistryFrom req) user password st1).1,
          ((c.UpdateRegistry (getRegistryFrom req) user password st1).2,
            [Call.AddRegistry (getRegistryFrom req) user password,
              Call.UpdateRegistry (getRegistryFrom req) user password]))) ∧
    (∀ e st1, c.AddRegistry (getRegistryFrom req) user password st = (some e, st1) →
      e ≠ secure.ErrRegistryAlreadyExists →
      Scan (recording c) req (st, []) =
        Outcome.returned ((harbor.ScanResponse.zero, some e),
          (st1, [Call.AddRegistry (getRegistryFrom req) user password]))) := by
  refine ⟨?_, ?_, ?_⟩
  · intro st1 h
    simp [setupCredentials, hauth, recording, h]
  · intro st1 h
    simp only [setupCredentials, hauth, recording, h, List.nil_append, ne_eq, not_true_eq_false,
      if_false, List.singleton_append]
    cases hu : (c.UpdateRegistry (getRegistryFrom req) user password st1).1 <;> simp
  · intro e st1 h hne
    simp [Scan, setupCredentials, hauth, recording, h, hne]

/-- C5 at the request of the first scenario: on the empty reference backend only
`AddRegistry` is called; on one that knows the registry `UpdateRegistry` follows
with the same arguments; on a backend whose `AddRegistry` fails with another
error `Scan` fails with that error. -/
theorem credential_upsert_witness :
    getUserAndPasswordFrom agentRequest.Registry.Authorization =
        some (gostr "user", gostr "pass") ∧
      setupCredentials (recording (referenceBackend id)) agentRequest ([], []) =
        Outcome.returned (none, ([(gostr "index.docker.io", (gostr "user", gostr "pass"))],
          [Call.AddRegistry (gostr "index.docker.io") (gostr "user") (gostr "pass")])) ∧
      setupCredentials (recording (referenceBackend id)) agentRequest
          ([(gostr "index.docker.io", (gostr "old", gostr "secret"))], []) =
        Outcome.returned (none, ([(gostr "index.docker.io", (gostr "user", gostr "pass"))],
          [Call.AddRegistry (gostr "index.docker.io") (gostr "user") (gostr "pass"),
            Call.UpdateRegistry (gostr "index.docker.io") (gostr "user") (gostr "pass")])) ∧
      Scan (recording (fixedClient (some (GoError.other (gostr "unauthorized"))) none
          (⟨[], []⟩, none) (⟨[]⟩, none) (⟨[], []⟩, none))) agentRequest ((), []) =
        Outcome.returned ((harbor.ScanResponse.zero, some (GoError.other (gostr "unauthorized"))),
          ((), [Call.AddRegistry (gostr "index.docker.io") (gostr "user") (gostr "pass")])) :=
  ⟨by decide,
    (credential_upsert (referenceBackend id) agentRequest (gostr "user") (gostr "pass") []
      (by decide)).1 [(gostr "index.docker.io", (gostr "user", gostr "pass"))] (by decide),
    (credential_upsert (referenceBackend id) agentRequest (gostr "user") (gostr "pass")
      [(gostr "index.docker.io", (gostr "old", gostr "secret"))] (by decide)).2.1
      [(gostr "index.docker.io", (gostr "old", gostr "secret"))] (by decide),
    (credential_upsert (fixedClient (some (GoError.other (gostr "unauthorized"))) none
      (⟨[], []⟩, none) (⟨[]⟩, none) (⟨[], []⟩, none)) agentRequest (gostr "user") (gostr "pass")
      () (by decide)).2.2 _ _ rfl (by decide)⟩

/-! ## The reference backend -/

theorem overwrite_keys (r u p : GoString) (m : Registries) :
    (overwrite r u p m).map Prod.fst = m.map Prod.fst := by
  induction m with
  | nil => rfl
  | cons e rest ih =>
    simp only [overwrite, List.map_cons, List.map_map] at ih ⊢
    rw [ih]
    by_cases h : e.1 = r <;> simp [h]

theorem overwrite_idem (r u p : GoString) (m : Registries) :
    overwrite r u p (overwrite r u p m) = overwrite r u p m := by
  induction m with
  | nil => rfl
  | cons e rest ih =>
    simp only [overwrite, List.map_cons] at ih ⊢
    rw [ih]
    by_cases h : e.1 = r <;> simp [h]

theorem overwrite_append_self (r u p : GoString) (m : Registries)
    (h : r ∉ m.map Prod.fst) :
    overwrite r u p (m ++ [(r, (u, p))]) = m ++ [(r, (u, p))] := by
  induction m with
  | nil => simp [overwrite]
  | cons e rest ih =>
    have he : e.1 ≠ r := fun x => h (by simp [x])
    have hr : r ∉ rest.map Prod.fst := fun x => h (by simp at x ⊢; exact Or.inr x)
    have ih' := ih hr
    simp only [overwrite, List.cons_append, List.map_cons, if_neg he] at ih' ⊢
    rw [ih']

theorem filter_of_not_mem_keys (r : GoString) (m : Registries) (h : r ∉ m.map Prod.fst) :
    m.filter (fun e => decide (e.1 = r)) = [] := by
  induction m with
  | nil => rfl
  | cons e rest ih =>
    have he : e.1 ≠ r := fun x => h (by simp [x])
    have hr : r ∉ rest.map Prod.fst := fun x => h (by simp at x ⊢; exact Or.inr x)
    simp [List.filter_cons, he, ih hr]

theorem overwrite_of_not_mem_keys (r u p : GoString) (m : Registries)
    (h : r ∉ m.map Prod.fst) : overwrite r u p m = m := by
  induction m with
  | nil => rfl
  | cons e rest ih =>
    have he : e.1 ≠ r := fun x => h (by simp [x])
    have hr : r ∉ rest.map Prod.fst := fun x => h (by simp at x ⊢; exact Or.inr x)
    have ih' := ih hr
    simp only [overwrite, List.map_cons, if_neg he] at ih' ⊢
    rw [ih']

/-- In a map without duplicate keys, overwriting leaves exactly one entry of the
registry, with the new credentials. -/
theorem filter_overwrite (r u p : GoString) (m : Registries)
    (hn : (m.map Prod.fst).Nodup) (h : r ∈ m.map Prod.fst) :
    (overwrite r u p m).filter (fun e => decide (e.1 = r)) = [(r, (u, p))] := by
  induction m with
  | nil => simp at h
  | cons e rest ih =>
    rw [List.map_cons, List.nodup_cons] at hn
    by_cases he : e.1 = r
    · have hr : r ∉ rest.map Prod.fst := by rw [← he]; exact hn.1
      have h1 : overwrite r u p (e :: rest) = (r, (u, p)) :: overwrite r u p rest := by
        simp [overwrite, he]
      rw [h1, overwrite_of_not_mem_keys r u p rest hr, List.filter_cons,
        filter_of_not_mem_keys r rest hr]
      simp
    · have hr : r ∈ rest.map Prod.fst := by
        rw [List.map_cons, List.mem_cons] at h
        rcases h with h | h
        · exact absurd h.symm he
        · exact h
      have h1 : overwrite r u p (e :: rest) = e :: overwrite r u p rest := by
        simp [overwrite, he]
      rw [h1, List.filter_cons, ih hn.2 hr]
      simp [he]

/-- The credential step on the reference backend: it succeeds, through
`AddRegistry` alone when the registry is new and through `UpdateRegistry` when
it is known. -/
theorem setupCredentials_reference (digestOf : GoString → GoString) (req : harbor.ScanRequest)
    (user password : GoString) (m : Registries) (log : List Call)
    (hauth : getUserAndPasswordFrom req.Registry.Authorization = some (user, password)) :
    setupCredentials (recording (referenceBackend digestOf)) req (m, log) =
      if getRegistryFrom req ∈ m.map Prod.fst then
        Outcome.returned (none, (overwrite (getRegistryFrom req) user password m,
          log ++ [Call.AddRegistry (getRegistryFrom req) user password,
            Call.UpdateRegistry (getRegistryFrom req) user password]))
      else
        Outcome.returned (none, (m ++ [(getRegistryFrom req, (user, password))],
          log ++ [Call.AddRegistry (getRegistryFrom req) user password])) := by
  by_cases h : getRegistryFrom req ∈ m.map Prod.fst
  · rw [if_pos h]
    simp only [setupCredentials, hauth, recording, referenceBackend, if_pos h, ne_eq,
      not_true_eq_false, if_false, List.append_assoc, List.singleton_append]
  · rw [if_neg h]
    simp only [setupCredentials, hauth, recording, referenceBackend, if_neg h]

/-- C6: on the reference backend, from any credential map without duplicate
keys, a first `Scan` of a request with a well-formed header leaves a map `m1`
that has exactly one entry of the request's registry, holding the request's user
and password; a second `Scan` of the same request leaves the same map `m1`,
goes through `AddRegistry` and `UpdateRegistry` before `AddImage`, and
succeeds. -/
theorem idempotent_provisioning (digestOf : GoString → GoString) (req : harbor.ScanRequest)
    (user password : GoString) (m : Registries)
    (hauth : getUserAndPasswordFrom req.Registry.Authorization = some (user, password))
    (hnodup : (m.map Prod.fst).Nodup) :
    ∃ (first : harbor.ScanResponse × Option GoError) (m1 : Registries) (log1 : List Call),
      Scan (recording (referenceBackend digestOf)) req (m, []) = Outcome.returned (first, (m1, log1)) ∧
      m1.filter (fun e => decide (e.1 = getRegistryFrom req)) =
        [(getRegistryFrom req, (user, password))] ∧
      Scan (recording (referenceBackend digestOf)) req (m1, []) =
        Outcome.returned ((harbor.ScanResponse.mk
            (createScanResponseID req.Artifact.Repository (digestOf (getImageFrom req))), none),
          (m1, [Call.AddRegistry (getRegistryFrom req) user password,
            Call.UpdateRegistry (getRegistryFrom req) user password,
            Call.AddImage (getImageFrom req) false])) := by
  have hsecond : ∀ m1 : Registries, getRegistryFrom req ∈ m1.map Prod.fst →
      overwrite (getRegistryFrom req) user password m1 = m1 →
      Scan (recording (referenceBackend digestOf)) req (m1, []) =
        Outcome.returned ((harbor.ScanResponse.mk
            (createScanResponseID req.Artifact.Repository (digestOf (getImageFrom req))), none),
          (m1, [Call.AddRegistry (getRegistryFrom req) user password,
            Call.UpdateRegistry (getRegistryFrom req) user password,
            Call.AddImage (getImageFrom req) false])) := by
    intro m1 hmem hfix
    simp only [Scan, setupCredentials_reference digestOf req user password m1 [] hauth,
      if_pos hmem, hfix]
    simp [recording, referenceBackend]
  by_cases h : getRegistryFrom req ∈ m.map Prod.fst
  · refine ⟨(harbor.ScanResponse.mk
        (createScanResponseID req.Artifact.Repository (digestOf (getImageFrom req))), none),
      overwrite (getRegistryFrom req) user password m,
      [Call.AddRegistry (getRegistryFrom req) user password,
        Call.UpdateRegistry (getRegistryFrom req) user password,
        Call.AddImage (getImageFrom req) false], ?_,
      filter_overwrite _ _ _ m hnodup h,
      hsecond _ (by rw [overwrite_keys]; exact h) (overwrite_idem _ _ _ m)⟩
    simp only [Scan, setupCredentials_reference digestOf req user password m [] hauth, if_pos h]
    simp [recording, referenceBackend]
  · refine ⟨(harbor.ScanResponse.mk
        (createScanResponseID req.Artifact.Repository (digestOf (getImageFrom req))), none),
      m ++ [(getRegistryFrom req, (user, password))],
      [Call.AddRegistry (getRegistryFrom req) user password,
        Call.AddImage (getImageFrom req) false], ?_, ?_,
      hsecond _ (by simp) (overwrite_append_self _ _ _ m h)⟩
    · simp only [Scan, setupCredentials_reference digestOf req user password m [] hauth,
        if_neg h]
      simp [recording, referenceBackend]
    · rw [List.filter_append, filter_of_not_mem_keys _ m h]
      simp

/-- C6 at the request of the first scenario, from the empty credential map. -/
theorem idempotent_provisioning_witness :
    (getUserAndPasswordFrom agentRequest.Registry.Authorization =
        some (gostr "user", gostr "pass") ∧
      (([] : Registries).map Prod.fst).Nodup) ∧
    ∃ (first : harbor.ScanResponse × Option GoError) (m1 : Registries) (log1 : List Call),
      Scan (recording (referenceBackend id)) agentRequest ([], []) = Outcome.returned (first, (m1, log1)) ∧
      m1.filter (fun e => decide (e.1 = getRegistryFrom agentRequest)) =
        [(getRegistryFrom agentRequest, (gostr "user", gostr "pass"))] ∧
      Scan (recording (referenceBackend id)) agentRequest (m1, []) =
        Outcome.returned ((harbor.ScanResponse.mk (createScanResponseID agentRequest.Artifact.Repository
            (id (getImageFrom agentRequest))), none),
          (m1, [Call.AddRegistry (getRegistryFrom agentRequest) (gostr "user") (gostr "pass"),
            Call.UpdateRegistry (getRegistryFrom agentRequest) (gostr "user") (gostr "pass"),
            Call.AddImage (getImageFrom agentRequest) false])) :=
  ⟨⟨by decide, List.nodup_nil⟩,
    idempotent_provisioning id agentRequest (gostr "user") (gostr "pass") [] (by decide)
      List.nodup_nil⟩

/-! ## Scan -/

/-- The credential step on a recording client returns what it returns on the
client itself, and appends to the journal calls none of which is an
`AddImage`. -/
theorem setupCredentials_recording {σ : Type} (c : secure.Client σ) (req : harbor.ScanRequest)
    (st : σ) (log : List Call) :
    ∃ calls : List Call, calls.filter Call.isAddImage = [] ∧
      ∀ (e : Option GoError) (st1 : σ),
        setupCredentials c req st = Outcome.returned (e, st1) →
        setupCredentials (recording c) req (st, log) =
          Outcome.returned (e, (st1, log ++ calls)) := by
  unfold setupCredentials
  cases hauth : getUserAndPasswordFrom req.Registry.Authorization with
  | none => exact ⟨[], rfl, fun e st1 h => by cases h⟩
  | some up =>
    obtain ⟨user, password⟩ := up
    simp only [recording]
    cases hadd : c.AddRegistry (getRegistryFrom req) user password st with
    | mk e st1 =>
      cases e with
      | none =>
        refine ⟨[Call.AddRegistry (getRegistryFrom req) user password], rfl, ?_⟩
        intro e2 st2 h
        cases h
        rfl
      | some e =>
        by_cases he : e = secure.ErrRegistryAlreadyExists
        · refine ⟨[Call.AddRegistry (getRegistryFrom req) user password,
            Call.UpdateRegistry (getRegistryFrom req) user password], rfl, ?_⟩
          intro e2 st2 h
          simp only [he, ne_eq, not_true_eq_false, if_false] at h ⊢
          cases hupd : c.UpdateRegistry (getRegistryFrom req) user password st1 with
          | mk e3 st3 =>
            rw [hupd] at h
            cases e3 <;> simp at h ⊢ <;> simp [h]
        · refine ⟨[Call.AddRegistry (getRegistryFrom req) user password], rfl, ?_⟩
          intro e2 st2 h
          simp only [ne_eq, he, not_false_eq_true, if_true] at h ⊢
          cases h
          rfl

/-- C7: for every request for which credential provisioning and `AddImage`
succeed, `AddImage` is called exactly once, with the image reference
`registry + "/" + repository + ":" + tag` (`registry = getRegistryFrom request`)
and force-refresh flag `false`, and `Scan` returns the `ScanResponse` whose `ID`
is `createScanResponseID` of the request's repository and the digest that
`AddImage` returned. -/
theorem scan_submission {σ : Type} (c : secure.Client σ) (req : harbor.ScanRequest)
    (st st1 st2 : σ) (response : secure.ScanResponse)
    (hcred : setupCredentials c req st = Outcome.returned (none, st1))
    (himg : c.AddImage (getImageFrom req) false st1 = ((response, none), st2)) :
    ∃ log : List Call,
      Scan (recording c) req (st, []) =
        Outcome.returned ((harbor.ScanResponse.mk
          (createScanResponseID req.Artifact.Repository response.ImageDigest), none),
          (st2, log)) ∧
      log.filter Call.isAddImage =
        [Call.AddImage (getRegistryFrom req ++ gostr "/" ++ req.Artifact.Repository ++
          gostr ":" ++ req.Artifact.Tag) false] := by
  obtain ⟨calls, hcalls, hsim⟩ := setupCredentials_recording c req st []
  have hrec := hsim none st1 hcred
  refine ⟨calls ++ [Call.AddImage (getImageFrom req) false], ?_, ?_⟩
  · rw [Scan, hrec]
    simp only [recording, himg, List.nil_append]
  · rw [List.filter_append, hcalls]
    rfl

/-- C7 at the request of the first scenario on the empty reference backend:
`index.docker.io/sysdig/agent:9.8.0` is submitted, once, without force. -/
theorem scan_submission_witness :
    (setupCredentials (referenceBackend (fun _ => gostr "sha256:0a1b")) agentRequest [] =
        Outcome.returned (none, [(gostr "index.docker.io", (gostr "user", gostr "pass"))]) ∧
      (referenceBackend (fun _ => gostr "sha256:0a1b")).AddImage (getImageFrom agentRequest)
          false [(gostr "index.docker.io", (gostr "user", gostr "pass"))] =
        ((⟨gostr "sha256:0a1b", []⟩, none),
          [(gostr "index.docker.io", (gostr "user", gostr "pass"))])) ∧
    ∃ log : List Call,
      Scan (recording (referenceBackend (fun _ => gostr "sha256:0a1b"))) agentRequest ([], []) =
        Outcome.returned ((harbor.ScanResponse.mk
          (createScanResponseID (gostr "sysdig/agent") (gostr "sha256:0a1b")), none),
          ([(gostr "index.docker.io", (gostr "user", gostr "pass"))], log)) ∧
      log.filter Call.isAddImage =
        [Call.AddImage (gostr "index.docker.io/sysdig/agent:9.8.0") false] :=
  ⟨⟨by decide, by decide⟩,
    scan_submission (referenceBackend (fun _ => gostr "sha256:0a1b")) agentRequest []
      [(gostr "index.docker.io", (gostr "user", gostr "pass"))]
      [(gostr "index.docker.io", (gostr "user", gostr "pass"))] ⟨gostr "sha256:0a1b", []⟩
      (by decide) (by decide)⟩

/-! ## Malformed input -/

/-- The result of `Split` has one field more than there are separators. -/
theorem Split_length (s : GoString) (sep : GoByte) :
    (Split s sep).length = s.count sep + 1 := by
  induction s with
  | nil => rfl
  | cons c rest ih =>
    rw [Split]
    by_cases h : c = sep
    · rw [if_pos h, List.length_cons, ih, h, List.count_cons_self]
    · rw [if_neg h]
      have hne := Split_ne_nil rest sep
      cases hs : Split rest sep with
      | nil => exact absurd hs hne
      | cons hd tl =>
        rw [hs] at ih
        simp only [List.length_cons] at ih ⊢
        rw [ih, List.count_cons_of_ne (Ne.symm h)]

/-- Taking the first two fields of `Split` fails exactly when the separator does
not occur. -/
theorem first_two_fields_none_iff (s : GoString) (sep : GoByte) :
    (match (Split s sep)[0]?, (Split s sep)[1]? with
      | some a, some b => some (a, b)
      | _, _ => none) = none ↔ sep ∉ s := by
  have hlen := Split_length s sep
  rw [← List.count_eq_zero]
  cases hs : Split s sep with
  | nil => exact absurd hs (Split_ne_nil s sep)
  | cons a tl =>
    rw [hs] at hlen
    cases tl with
    | nil =>
      simp only [List.length_cons, List.length_nil] at hlen
      simp only [List.getElem?_cons_zero, List.getElem?_cons_succ, List.getElem?_nil]
      constructor
      · intro _; omega
      · intro _; trivial
    | cons b tl2 =>
      simp only [List.length_cons] at hlen
      simp only [List.getElem?_cons_zero, List.getElem?_cons_succ]
      constructor
      · intro h; simp at h
      · intro h; omega

/-- C8, as stated, fails: on the empty handle, and on the handle `YWJj` (the
base64 of `abc`, a text without `'|'`), `parseScanResponseID` indexes
`splitted[1]` out of range, and `GetVulnerabilityReport` panics on the empty
handle without having called the backend. -/
theorem malformed_handle_counterexample :
    parseScanResponseID (gostr "") = none ∧
      parseScanResponseID (gostr "YWJj") = none ∧
      GetVulnerabilityReport (gostr "1.0") (recording (reportingClient [])) (gostr "")
        ((), []) = Outcome.panicked ((), []) := by
  decide

/-- C8, amended: for every string passed as scan handle, `parseScanResponseID`
returns a pair exactly when the bytes that `base64.URLEncoding.DecodeString`
returns for it (the bytes decoded before a decoding error included, the error
itself being dropped) contain a `'|'`; otherwise it indexes out of range.
`GetVulnerabilityReport` panics before any call to the backend, the journal
empty and the state of the backend untouched, for exactly the strings whose
decoded bytes contain no `'|'`. -/
theorem malformed_handle {σ : Type} (backendVersion : GoString) (c : secure.Client σ)
    (scanResponseID : GoString) (st : σ) :
    (parseScanResponseID scanResponseID = none ↔
      (124 : GoByte) ∉ (URLEncoding.DecodeString scanResponseID).1) ∧
    (GetVulnerabilityReport backendVersion (recording c) scanResponseID (st, []) =
        Outcome.panicked (st, []) ↔
      (124 : GoByte) ∉ (URLEncoding.DecodeString scanResponseID).1) := by
  have h1 : parseScanResponseID scanResponseID = none ↔
      (124 : GoByte) ∉ (URLEncoding.DecodeString scanResponseID).1 :=
    first_two_fields_none_iff _ 124
  refine ⟨h1, ?_⟩
  rw [← h1]
  unfold GetVulnerabilityReport
  cases hp : parseScanResponseID scanResponseID with
  | none => simp
  | some rd =>
    obtain ⟨repository, shaDigest⟩ := rd
    simp only [reduceCtorEq, iff_false, fillVulnerabilities, recording]
    cases hg : c.GetVulnerabilities shaDigest st with
    | mk r st1 =>
      obtain ⟨vr, e⟩ := r
      cases e with
      | some e => simp only; split_ifs <;> simp
      | none =>
        simp only
        cases hl : fillVulnerabilitiesLoop
          { harbor.VulnerabilityReport.zero with
            Scanner := some (scanner backendVersion), Severity := harbor.UNKNOWN }
          vr.Vulnerabilities with
        | none => simp
        | some result1 => simp [fillArtifact]

/-- C9, as stated, fails: on the empty authorization string, and on
`Basic dXNlcg==` (the base64 of `user`, a text without `':'`),
`getUserAndPasswordFrom` indexes `splitted[1]` out of range, and `Scan` panics
on the empty authorization string without having called the backend. -/
theorem malformed_authorization_counterexample :
    getUserAndPasswordFrom (gostr "") = none ∧
      getUserAndPasswordFrom (gostr "Basic dXNlcg==") = none ∧
      Scan (recording (referenceBackend id))
        (requestOf (gostr "https://index.docker.io") (gostr "")) ([], []) =
        Outcome.panicked ([], []) := by
  decide

/-- C9, amended: for every authorization string, `getUserAndPasswordFrom`
returns a pair exactly when the bytes that `base64.StdEncoding.DecodeString`
returns for the string without its `"Basic "` occurrences (the bytes decoded
before a decoding error included, the error itself being dropped) contain a
`':'`; otherwise it indexes out of range.  `Scan` panics before any call to the
backend, the journal empty and the state of the backend untouched, for exactly
the authorization strings whose decoded bytes contain no `':'`. -/
theorem malformed_authorization {σ : Type} (c : secure.Client σ) (req : harbor.ScanRequest)
    (st : σ) :
    (getUserAndPasswordFrom req.Registry.Authorization = none ↔
      (58 : GoByte) ∉ (StdEncoding.DecodeString
        (ReplaceAll req.Registry.Authorization (gostr "Basic ") (gostr ""))).1) ∧
    (Scan (recording c) req (st, []) = Outcome.panicked (st, []) ↔
      (58 : GoByte) ∉ (StdEncoding.DecodeString
        (ReplaceAll req.Registry.Authorization (gostr "Basic ") (gostr ""))).1) := by
  have h1 : getUserAndPasswordFrom req.Registry.Authorization = none ↔
      (58 : GoByte) ∉ (StdEncoding.DecodeString
        (ReplaceAll req.Registry.Authorization (gostr "Basic ") (gostr ""))).1 :=
    first_two_fields_none_iff _ 58
  refine ⟨h1, ?_⟩
  rw [← h1]
  unfold Scan setupCredentials
  cases hp : getUserAndPasswordFrom req.Registry.Authorization with
  | none => simp
  | some up =>
    obtain ⟨user, password⟩ := up
    simp only [reduceCtorEq, iff_false, recording]
    cases hadd : c.AddRegistry (getRegistryFrom req) user password st with
    | mk e st1 =>
      cases e with
      | none =>
        simp only
        cases himg : c.AddImage (getImageFrom req) false st1 with
        | mk r st2 =>
          obtain ⟨resp, e2⟩ := r
          cases e2 <;> simp
      | some e =>
        simp only
        by_cases he : e = secure.ErrRegistryAlreadyExists
        · simp only [he, ne_eq, not_true_eq_false, if_false]
          cases hupd : c.UpdateRegistry (getRegistryFrom req) user password st1 with
          | mk e3 st3 =>
            cases e3 with
            | some e3 => simp
            | none =>
              simp only
              cases himg : c.AddImage (getImageFrom req) false st3 with
              | mk r st2 =>
                obtain ⟨resp, e2⟩ := r
                cases e2 <;> simp
        · simp [he]

/-- C10, as stated, fails: `GetVulnerabilities` succeeds, `GetImage` returns an
error, and `GetVulnerabilityReport` returns a report and no error. -/
theorem image_fetch_failure_counterexample :
    (recording (imagelessClient [] (GoError.other (gostr "timeout")))).GetImage
        (gostr "sha256:0a1b") ((), []) =
        ((⟨[], []⟩, some (GoError.other (gostr "timeout"))),
          ((), [Call.GetImage (gostr "sha256:0a1b")])) ∧
      GetVulnerabilityReport (gostr "1.0")
        (recording (imagelessClient [] (GoError.other (gostr "timeout")))) agentHandle
        ((), []) =
        Outcome.returned ((initialReport (gostr "1.0"), none),
          ((), [Call.GetVulnerabilities (gostr "sha256:0a1b"),
            Call.GetImage (gostr "sha256:0a1b")])) := by
  decide

/-- C10, amended: for every handle that parses, if `GetVulnerabilities` succeeds
with a list that has no nil entry and `GetImage` returns an error,
`GetVulnerabilityReport` drops that error: it returns a report and no error,
having called `GetVulnerabilities` once and `GetImage` once (no retry). -/
theorem image_fetch_failure {σ : Type} (backendVersion : GoString) (c : secure.Client σ)
    (scanResponseID repository shaDigest : GoString) (st st1 st2 : σ)
    (backendReport : secure.VulnerabilityReport) (image : secure.ScanResponse) (e : GoError)
    (hparse : parseScanResponseID scanResponseID = some (repository, shaDigest))
    (hget : c.GetVulnerabilities shaDigest st = ((backendReport, none), st1))
    (hnil : none ∉ backendReport.Vulnerabilities)
    (himg : c.GetImage shaDigest st1 = ((image, some e), st2)) :
    ∃ report : harbor.VulnerabilityReport,
      GetVulnerabilityReport backendVersion (recording c) scanResponseID (st, []) =
        Outcome.returned ((report, none),
          (st2, [Call.GetVulnerabilities shaDigest, Call.GetImage shaDigest])) := by
  obtain ⟨vs, hvs⟩ := records_of_no_nil _ hnil
  obtain ⟨l⟩ := backendReport
  simp only at hvs
  subst hvs
  have hget2 : (recording c).GetVulnerabilities shaDigest (st, []) =
      ((⟨vs.map some⟩, none), (st1, [Call.GetVulnerabilities shaDigest])) := by
    simp [recording, hget]
  rw [GetVulnerabilityReport_ok backendVersion (recording c) scanResponseID repository shaDigest
    (st, []) (st1, [Call.GetVulnerabilities shaDigest]) vs hparse hget2]
  simp only [recording, himg]
  exact ⟨_, rfl⟩

/-- The amended C10 at the handle of `sysdig/agent` and a backend whose
`GetImage` times out. -/
theorem image_fetch_failure_witness :
    none ∉ [vulnerabilityOf "CVE-1" "High"].map some ∧
    ∃ report : harbor.VulnerabilityReport,
      GetVulnerabilityReport (gostr "1.0")
        (recording (imagelessClient [vulnerabilityOf "CVE-1" "High"]
          (GoError.other (gostr "timeout")))) agentHandle ((), []) =
        Outcome.returned ((report, none),
          ((), [Call.GetVulnerabilities (gostr "sha256:0a1b"),
            Call.GetImage (gostr "sha256:0a1b")])) :=
  ⟨by decide,
    image_fetch_failure (gostr "1.0")
      (imagelessClient [vulnerabilityOf "CVE-1" "High"] (GoError.other (gostr "timeout")))
      agentHandle (gostr "sysdig/agent") (gostr "sha256:0a1b") () () ()
      ⟨[vulnerabilityOf "CVE-1" "High"].map some⟩ ⟨[], []⟩ (GoError.other (gostr "timeout"))
      (by decide) rfl (by decide) rfl⟩

/-! ## Artifact enrichment -/

/-- The loop of `fillArtifact` stops at the first entry of the repository. -/
theorem fillArtifactLoop_found (repository : GoString) (result : harbor.VulnerabilityReport)
    (details : List secure.ImageDetail) (d : secure.ImageDetail)
    (h : details.find? (fun x => decide (x.Repository = repository)) = some d) :
    (fillArtifactLoop repository result details).Artifact =
        some (harbor.Artifact.mk d.Repository d.Digest d.Tag
          harbor.DockerDistributionManifestMimeType) ∧
      (fillArtifactLoop repository result details).GeneratedAt = d.CreatedAt := by
  induction details with
  | nil => simp at h
  | cons x rest ih =>
    rw [fillArtifactLoop]
    by_cases hx : x.Repository = repository
    · rw [if_pos hx]
      rw [List.find?_cons_of_pos _ (by simpa using hx)] at h
      cases h
      exact ⟨rfl, rfl⟩
    · rw [if_neg hx]
      rw [List.find?_cons_of_neg _ (by simpa using hx)] at h
      exact ih h

/-- Without an entry of the repository the loop of `fillArtifact` changes
nothing. -/
theorem fillArtifactLoop_not_found (repository : GoString)
    (result : harbor.VulnerabilityReport) (details : List secure.ImageDetail)
    (h : ∀ x ∈ details, x.Repository ≠ repository) :
    fillArtifactLoop repository result details = result := by
  induction details with
  | nil => rfl
  | cons x rest ih =>
    rw [fillArtifactLoop, if_neg (h x (List.mem_cons_self _ _))]
    exact ih (fun y hy => h y (List.mem_cons_of_mem _ hy))

/-- C11, as stated, fails: `GetVulnerabilities` succeeds, with a list whose one
entry is nil, the image detail that `GetImage` returns has no entry of the
repository, and `GetVulnerabilityReport` does not succeed: it panics in the
loop over the list, before `GetImage` is called. -/
theorem artifact_enrichment_counterexample :
    (entriesClient [none] []).GetVulnerabilities (gostr "sha256:0a1b") () =
        ((⟨[none]⟩, none), ()) ∧
      (∀ x ∈ ((entriesClient [none] []).GetImage (gostr "sha256:0a1b") ()).1.1.ImageDetail,
        x.Repository ≠ gostr "sysdig/agent") ∧
      GetVulnerabilityReport (gostr "1.0") (recording (entriesClient [none] [])) agentHandle
        ((), []) = Outcome.panicked ((), [Call.GetVulnerabilities (gostr "sha256:0a1b")]) := by
  decide

/-- C11, amended: whenever the handle parses and `GetVulnerabilities` succeeds
with a list that has no nil entry, the call succeeds; if the image-detail list
that `GetImage` returned has an entry whose `Repository` is the repository
decoded from the handle, the report's `Artifact` is the `Repository`, `Digest`
and `Tag` of the first such entry with the Docker distribution manifest MIME
type, and `GeneratedAt` is that entry's `CreatedAt`; if there is no such entry,
`Artifact` is `nil` and `GeneratedAt` is zero. -/
theorem artifact_enrichment {σ : Type} (backendVersion : GoString) (c : secure.Client σ)
    (scanResponseID repository shaDigest : GoString) (st st1 : σ)
    (backendReport : secure.VulnerabilityReport)
    (hparse : parseScanResponseID scanResponseID = some (repository, shaDigest))
    (hget : c.GetVulnerabilities shaDigest st = ((backendReport, none), st1))
    (hnil : none ∉ backendReport.Vulnerabilities) :
    ∃ report st2,
      GetVulnerabilityReport backendVersion c scanResponseID st =
        Outcome.returned ((report, none), st2) ∧
      (∀ d : secure.ImageDetail,
        (c.GetImage shaDigest st1).1.1.ImageDetail.find?
            (fun x => decide (x.Repository = repository)) = some d →
        report.Artifact = some (harbor.Artifact.mk d.Repository d.Digest d.Tag
            harbor.DockerDistributionManifestMimeType) ∧
          report.GeneratedAt = d.CreatedAt) ∧
      ((∀ x ∈ (c.GetImage shaDigest st1).1.1.ImageDetail, x.Repository ≠ repository) →
        report.Artifact = none ∧ report.GeneratedAt = 0) := by
  obtain ⟨vs, hvs⟩ := records_of_no_nil _ hnil
  obtain ⟨l⟩ := backendReport
  simp only at hvs
  subst hvs
  refine ⟨_, _, GetVulnerabilityReport_ok backendVersion c scanResponseID repository shaDigest
    st st1 vs hparse hget, ?_, ?_⟩
  · intro d hd
    exact fillArtifactLoop_found repository _ _ d hd
  · intro hnone
    rw [fillArtifactLoop_not_found repository _ _ hnone]
    exact foldl_fillVulnerability_Artifact (vs.map vulnerabilityItemOf)
      (initialReport backendVersion)

/-- The amended C11 at the handle of `sysdig/agent`: with image detail for
`library/nginx`, then `sysdig/agent:9.8.0`, then `sysdig/agent:latest`, the
artifact is the second entry; with image detail for `library/nginx` alone it is
`nil`. -/
theorem artifact_enrichment_witness :
    (GetVulnerabilityReport (gostr "1.0")
        (detailClient [detailOf "library/nginx" "1.19" 5, detailOf "sysdig/agent" "9.8.0" 7,
          detailOf "sysdig/agent" "latest" 9]) agentHandle ()).result.map
        (fun r => (r.1.1.Artifact, r.1.1.GeneratedAt, r.1.2)) =
        some (some (harbor.Artifact.mk (gostr "sysdig/agent") (gostr "sha256:0a1b")
          (gostr "9.8.0") harbor.DockerDistributionManifestMimeType), 7, none) ∧
      (GetVulnerabilityReport (gostr "1.0")
        (detailClient [detailOf "library/nginx" "1.19" 5]) agentHandle ()).result.map
        (fun r => (r.1.1.Artifact, r.1.1.GeneratedAt, r.1.2)) = some (none, 0, none) ∧
      ∃ report st2,
        GetVulnerabilityReport (gostr "1.0")
          (detailClient [detailOf "library/nginx" "1.19" 5, detailOf "sysdig/agent" "9.8.0" 7,
            detailOf "sysdig/agent" "latest" 9]) agentHandle () =
          Outcome.returned ((report, none), st2) ∧
        (∀ d : secure.ImageDetail,
          [detailOf "library/nginx" "1.19" 5, detailOf "sysdig/agent" "9.8.0" 7,
            detailOf "sysdig/agent" "latest" 9].find?
              (fun x => decide (x.Repository = gostr "sysdig/agent")) = some d →
          report.Artifact = some (harbor.Artifact.mk d.Repository d.Digest d.Tag
              harbor.DockerDistributionManifestMimeType) ∧
            report.GeneratedAt = d.CreatedAt) ∧
        ((∀ x ∈ [detailOf "library/nginx" "1.19" 5, detailOf "sysdig/agent" "9.8.0" 7,
            detailOf "sysdig/agent" "latest" 9], x.Repository ≠ gostr "sysdig/agent") →
          report.Artifact = none ∧ report.GeneratedAt = 0) :=
  ⟨by decide, by decide,
    artifact_enrichment (gostr "1.0")
      (detailClient [detailOf "library/nginx" "1.19" 5, detailOf "sysdig/agent" "9.8.0" 7,
        detailOf "sysdig/agent" "latest" 9]) agentHandle (gostr "sysdig/agent")
      (gostr "sha256:0a1b") () () ⟨[]⟩ (by decide) rfl (by decide)⟩

/-! ## `strings.ReplaceAll` -/

/-- The bytes counted by `skip` are dropped. -/
theorem replaceAllAux_skip (old new : GoString) (pre s : GoString) :
    replaceAllAux old new pre.length (pre ++ s) = replaceAllAux old new 0 s := by
  induction pre with
  | nil => rfl
  | cons x rest ih =>
    rw [List.length_cons, List.cons_append, replaceAllAux]
    exact ih

/-- An occurrence of `old` at the start is replaced and the scan goes on behind
it. -/
theorem replaceAllAux_leading (old new s : GoString) (h : old ≠ []) :
    replaceAllAux old new 0 (old ++ s) = new ++ replaceAllAux old new 0 s := by
  cases old with
  | nil => exact absurd rfl h
  | cons c t =>
    have hp : (c :: t).isPrefixOf (c :: (t ++ s)) = true := by
      rw [ List.isPrefixOf_iff_prefix]
      exact ⟨s, rfl⟩
    rw [List.cons_append, replaceAllAux, if_pos hp]
    simp only [List.length_cons, Nat.add_sub_cancel]
    rw [replaceAllAux_skip]

/-- A string without an occurrence of `old` is returned as it is. -/
theorem replaceAllAux_no_infix (old new s : GoString) (h : ¬ old <:+: s) :
    replaceAllAux old new 0 s = s := by
  induction s with
  | nil => rfl
  | cons c rest ih =>
    have hp : ¬ (old.isPrefixOf (c :: rest) = true) := by
      rw [ List.isPrefixOf_iff_prefix]
      intro hpre
      exact h hpre.isInfix
    have hr : ¬ old <:+: rest := by
      intro hin
      obtain ⟨a, b, hab⟩ := hin
      exact h ⟨c :: a, b, by simp [← hab]⟩
    rw [replaceAllAux, if_neg hp, ih hr]

/-- C12, as stated, fails: the URL `http://registry.local:5000` has the form
scheme, `://`, host and port, its host and port contain no `://`, and
`getRegistryFrom` returns the URL unchanged, scheme included. -/
theorem registry_derivation_counterexample :
    gostr "http://registry.local:5000" =
        gostr "http" ++ gostr "://" ++ gostr "registry.local:5000" ∧
      ¬ gostr "://" <:+: gostr "registry.local:5000" ∧
      getRegistryFrom (requestOf (gostr "http://registry.local:5000") (gostr "")) =
        gostr "http://registry.local:5000" ∧
      getRegistryFrom (requestOf (gostr "http://registry.local:5000") (gostr "")) ≠
        gostr "registry.local:5000" := by
  decide

/-- C12, amended: for every registry URL of the form `"https://" + hostport`,
where `hostport` contains no `"https://"`, `getRegistryFrom` returns exactly
`hostport`. -/
theorem registry_derivation (req : harbor.ScanRequest) (hostport : GoString)
    (hurl : req.Registry.URL = gostr "https://" ++ hostport)
    (hhost : ¬ gostr "https://" <:+: hostport) :
    getRegistryFrom req = hostport := by
  unfold getRegistryFrom ReplaceAll
  rw [hurl, replaceAllAux_leading _ _ _ (by decide), replaceAllAux_no_infix _ _ _ hhost]
  rfl

/-- The amended C12 at `https://index.docker.io`. -/
theorem registry_derivation_witness :
    (agentRequest.Registry.URL = gostr "https://" ++ gostr "index.docker.io" ∧
      ¬ gostr "https://" <:+: gostr "index.docker.io") ∧
    getRegistryFrom agentRequest = gostr "index.docker.io" :=
  ⟨⟨by decide, by decide⟩,
    registry_derivation agentRequest (gostr "index.docker.io") (by decide) (by decide)⟩

/-! ## The bytes of an encoded string -/

/-- A property of every alphabet byte and of the padding byte holds of every
byte that `EncodeToString` writes. -/
theorem EncodeToString_forall (enc : Encoding) (P : GoByte → Prop)
    (hP : ∀ i : Fin 64, P (enc.encodeAt i.val)) (hpad : ∀ p, enc.padChar = some p → P p)
    (s : List GoByte) : ∀ c ∈ enc.EncodeToString s, P c := by
  have hmod : ∀ x : Nat, P (enc.encodeAt (x % 64)) :=
    fun x => hP ⟨x % 64, Nat.mod_lt _ (by decide)⟩
  refine Encoding.EncodeToString.induct enc (fun s => ∀ c ∈ enc.EncodeToString s, P c)
    ?_ ?_ ?_ ?_ s
  · intro a b c rest ih x hx
    simp only [Encoding.EncodeToString, and_0x3F, List.mem_cons] at hx
    rcases hx with rfl | rfl | rfl | rfl | hx
    · exact hmod _
    · exact hmod _
    · exact hmod _
    · exact hmod _
    · exact ih x hx
  · intro a b x hx
    simp only [Encoding.EncodeToString, and_0x3F, List.cons_append, List.nil_append,
      List.mem_cons] at hx
    rcases hx with rfl | rfl | rfl | hx
    · exact hmod _
    · exact hmod _
    · exact hmod _
    · cases hp : enc.padChar with
      | none => rw [hp] at hx; simp at hx
      | some p =>
        rw [hp] at hx
        simp only [List.mem_singleton] at hx
        rw [hx]
        exact hpad p hp
  · intro a x hx
    simp only [Encoding.EncodeToString, and_0x3F, List.cons_append, List.nil_append,
      List.mem_cons] at hx
    rcases hx with rfl | rfl | hx
    · exact hmod _
    · exact hmod _
    · cases hp : enc.padChar with
      | none => rw [hp] at hx; simp at hx
      | some p =>
        rw [hp] at hx
        simp only [List.mem_cons, List.mem_singleton, List.not_mem_nil, or_false,
          or_self] at hx
        rw [hx]
        exact hpad p hp
  · intro x hx
    simp [Encoding.EncodeToString] at hx

set_option maxRecDepth 100000 in
/-- C15: for every repository and digest, every byte of
`createScanResponseID repository digest` is a letter `A`-`Z` or `a`-`z`, a
digit, `'-'`, `'_'` or the padding byte `'='`, and never `'+'` or `'/'`. -/
theorem scan_handle_url_safe (repository shaDigest : GoString) :
    ∀ c ∈ createScanResponseID repository shaDigest,
      ((65 ≤ c.val ∧ c.val ≤ 90) ∨ (97 ≤ c.val ∧ c.val ≤ 122) ∨ (48 ≤ c.val ∧ c.val ≤ 57) ∨
        c = 45 ∨ c = 95 ∨ c = 61) ∧ c ≠ 43 ∧ c ≠ 47 := by
  unfold createScanResponseID
  refine EncodeToString_forall URLEncoding _ ?_ ?_ _
  · decide
  · intro p hp
    cases hp
    decide

/-- C15 at the handle of `sysdig/agent` and `sha256:0a1b`, which is
`c3lzZGlnL2FnZW50fHNoYTI1NjowYTFi`: its first byte `c` is a lower-case
letter. -/
theorem scan_handle_url_safe_witness :
    createScanResponseID (gostr "sysdig/agent") (gostr "sha256:0a1b") =
        gostr "c3lzZGlnL2FnZW50fHNoYTI1NjowYTFi" ∧
      (99 : GoByte) ∈ createScanResponseID (gostr "sysdig/agent") (gostr "sha256:0a1b") ∧
      (((65 ≤ (99 : GoByte).val ∧ (99 : GoByte).val ≤ 90) ∨
        (97 ≤ (99 : GoByte).val ∧ (99 : GoByte).val ≤ 122) ∨
        (48 ≤ (99 : GoByte).val ∧ (99 : GoByte).val ≤ 57) ∨
        (99 : GoByte) = 45 ∨ (99 : GoByte) = 95 ∨ (99 : GoByte) = 61) ∧
        (99 : GoByte) ≠ 43 ∧ (99 : GoByte) ≠ 47) :=
  ⟨by decide, by decide,
    scan_handle_url_safe (gostr "sysdig/agent") (gostr "sha256:0a1b") 99 (by decide)⟩

/-! ## Basic authorization -/

set_option maxRecDepth 100000 in
/-- The standard encoding writes no space. -/
theorem StdEncoding_no_space (s : List GoByte) : (32 : GoByte) ∉ StdEncoding.EncodeToString s := by
  intro h
  refine EncodeToString_forall StdEncoding (fun c => c ≠ 32) ?_ ?_ s 32 h rfl
  · decide
  · intro p hp
    cases hp
    decide

/-- The prefix `"Basic "` is removed from a header whose payload is an encoded
string. -/
theorem ReplaceAll_Basic (s : List GoByte) :
    ReplaceAll (gostr "Basic " ++ StdEncoding.EncodeToString s) (gostr "Basic ") (gostr "") =
      StdEncoding.EncodeToString s := by
  have hno : ¬ gostr "Basic " <:+: StdEncoding.EncodeToString s := by
    intro hin
    have hsp : (32 : GoByte) ∈ gostr "Basic " := by decide
    exact StdEncoding_no_space s (hin.subset hsp)
  unfold ReplaceAll
  rw [replaceAllAux_leading _ _ _ (by decide), replaceAllAux_no_infix _ _ _ hno]
  rfl

/-- C13, as stated, fails: for the user `user` and the password `pa:ss` the
header is `Basic dXNlcjpwYTpzcw==` and `getUserAndPasswordFrom` returns the
password `pa`. -/
theorem basic_auth_decoding_counterexample :
    (58 : GoByte) ∉ gostr "user" ∧
      gostr "Basic " ++ StdEncoding.EncodeToString (gostr "user" ++ gostr ":" ++ gostr "pa:ss") =
        gostr "Basic dXNlcjpwYTpzcw==" ∧
      getUserAndPasswordFrom (gostr "Basic dXNlcjpwYTpzcw==") =
        some (gostr "user", gostr "pa") ∧
      getUserAndPasswordFrom (gostr "Basic dXNlcjpwYTpzcw==") ≠
        some (gostr "user", gostr "pa:ss") := by
  decide

/-- C13, amended: for every user string and every password string that both
contain no `':'`, `getUserAndPasswordFrom` of `"Basic "` followed by the standard
base64 of `user + ":" + password` returns `(user, password)`. -/
theorem basic_auth_decoding (user password : GoString)
    (hu : (58 : GoByte) ∉ user) (hp : (58 : GoByte) ∉ password) :
    getUserAndPasswordFrom
        (gostr "Basic " ++ StdEncoding.EncodeToString (user ++ 58 :: password)) =
      some (user, password) := by
  unfold getUserAndPasswordFrom
  simp only
  rw [ReplaceAll_Basic, DecodeString_EncodeToString StdEncoding StdEncoding_regular,
    Split_append_sep user password 58 hu, Split_of_not_mem password 58 hp]
  rfl

/-- The amended C13 at the header `Basic dXNlcjpwYXNz`: it gives `user` and
`pass`. -/
theorem basic_auth_decoding_witness :
    ((58 : GoByte) ∉ gostr "user" ∧ (58 : GoByte) ∉ gostr "pass") ∧
      gostr "Basic " ++ StdEncoding.EncodeToString (gostr "user" ++ 58 :: gostr "pass") =
        gostr "Basic dXNlcjpwYXNz" ∧
      getUserAndPasswordFrom
          (gostr "Basic " ++ StdEncoding.EncodeToString (gostr "user" ++ 58 :: gostr "pass")) =
        some (gostr "user", gostr "pass") :=
  ⟨⟨by decide, by decide⟩, by decide,
    basic_auth_decoding (gostr "user") (gostr "pass") (by decide) (by decide)⟩

/-! ## Scan handles with a separator inside -/

/-- No field of `Split` contains the separator. -/
theorem Split_fields (s : GoString) (sep : GoByte) : ∀ f ∈ Split s sep, sep ∉ f := by
  induction s with
  | nil =>
    intro f hf
    simp only [Split, List.mem_singleton] at hf
    rw [hf]
    exact List.not_mem_nil _
  | cons c rest ih =>
    intro f hf
    rw [Split] at hf
    by_cases hc : c = sep
    · rw [if_pos hc, List.mem_cons] at hf
      rcases hf with rfl | hf
      · exact List.not_mem_nil _
      · exact ih f hf
    · rw [if_neg hc] at hf
      cases hs : Split rest sep with
      | nil => exact absurd hs (Split_ne_nil rest sep)
      | cons hd tl =>
        rw [hs] at hf ih
        simp only [List.mem_cons] at hf
        rcases hf with rfl | hf
        · intro hmem
          rcases List.mem_cons.mp hmem with h | h
          · exact hc h.symm
          · exact ih hd (List.mem_cons_self _ _) h
        · exact ih f (List.mem_cons_of_mem _ hf)

/-- Parsing a created handle takes the first two fields of
`repository + "|" + digest`. -/
theorem parseScanResponseID_create (repository shaDigest : GoString) :
    parseScanResponseID (createScanResponseID repository shaDigest) =
      match (Split (repository ++ 124 :: shaDigest) 124)[0]?,
        (Split (repository ++ 124 :: shaDigest) 124)[1]? with
      | some a, some b => some (a, b)
      | _, _ => none := by
  unfold parseScanResponseID createScanResponseID
  rw [DecodeString_EncodeToString URLEncoding URLEncoding_regular]
  rfl

/-- C14, as stated, fails: the handle of the repository `a|b` and the digest `c`
parses to `(a, b)`, and it is also the handle of the repository `a` and the
digest `b|c`. -/
theorem scan_handle_any_input_counterexample :
    parseScanResponseID (createScanResponseID (gostr "a|b") (gostr "c")) =
        some (gostr "a", gostr "b") ∧
      parseScanResponseID (createScanResponseID (gostr "a|b") (gostr "c")) ≠
        some (gostr "a|b", gostr "c") ∧
      createScanResponseID (gostr "a|b") (gostr "c") =
        createScanResponseID (gostr "a") (gostr "b|c") ∧
      (gostr "a|b", gostr "c") ≠ (gostr "a", gostr "b|c") := by
  decide

/-- C14, amended: `parseScanResponseID (createScanResponseID repository digest)`
is `(repository, digest)` exactly when neither string contains a `'|'`, and
`createScanResponseID` is injective on the pairs whose repository contains no
`'|'`. -/
theorem scan_handle_any_input :
    (∀ repository shaDigest : GoString,
      parseScanResponseID (createScanResponseID repository shaDigest) =
          some (repository, shaDigest) ↔
        (124 : GoByte) ∉ repository ∧ (124 : GoByte) ∉ shaDigest) ∧
    (∀ r1 d1 r2 d2 : GoString, (124 : GoByte) ∉ r1 → (124 : GoByte) ∉ r2 →
      createScanResponseID r1 d1 = createScanResponseID r2 d2 → r1 = r2 ∧ d1 = d2) := by
  constructor
  · intro repository shaDigest
    rw [parseScanResponseID_create]
    constructor
    · intro h
      have hf := Split_fields (repository ++ 124 :: shaDigest) 124
      cases h0 : (Split (repository ++ 124 :: shaDigest) 124)[0]? with
      | none => rw [h0] at h; simp at h
      | some a =>
        cases h1 : (Split (repository ++ 124 :: shaDigest) 124)[1]? with
        | none => rw [h0, h1] at h; simp at h
        | some b =>
          rw [h0, h1] at h
          simp only [Option.some.injEq, Prod.mk.injEq] at h
          obtain ⟨rfl, rfl⟩ := h
          exact ⟨hf a (List.getElem?_mem h0), hf b (List.getElem?_mem h1)⟩
    · rintro ⟨hr, hd⟩
      rw [Split_append_sep repository shaDigest 124 hr, Split_of_not_mem shaDigest 124 hd]
      rfl
  · intro r1 d1 r2 d2 h1 h2 heq
    have hdec := congrArg (fun x => (URLEncoding.DecodeString x).1) heq
    simp only [createScanResponseID,
      DecodeString_EncodeToString URLEncoding URLEncoding_regular, sprintfPipe] at hdec
    have hsplit := congrArg (fun x => Split x 124) hdec
    simp only [Split_append_sep r1 d1 124 h1, Split_append_sep r2 d2 124 h2,
      List.cons.injEq] at hsplit
    obtain ⟨hr, -⟩ := hsplit
    subst hr
    exact ⟨rfl, by simpa using hdec⟩

/-! ## From `Scan` to the report -/

/-- A handle created from two strings without `'|'` parses to them. -/
theorem parseScanResponseID_create_of_not_mem (repository shaDigest : GoString)
    (hr : (124 : GoByte) ∉ repository) (hd : (124 : GoByte) ∉ shaDigest) :
    parseScanResponseID (createScanResponseID repository shaDigest) =
      some (repository, shaDigest) := by
  rw [parseScanResponseID_create, Split_append_sep repository shaDigest 124 hr,
    Split_of_not_mem shaDigest 124 hd]
  rfl

/-- C16: for every request whose repository contains no `'|'`, for which
credential provisioning succeeds and `AddImage` returns a digest `d` without
`'|'`, `Scan` returns an ID on which `GetVulnerabilityReport` calls
`GetVulnerabilities` with exactly `d` and then, unless that call failed or
returned a list with a nil entry (the call then ends with an error or panics,
having made that one call), `GetImage` with exactly `d`, and matches the
image-detail entries against exactly the request's repository. -/
theorem scan_then_report {σ : Type} (backendVersion : GoString) (c : secure.Client σ)
    (req : harbor.ScanRequest) (st st1 st2 : σ) (response : secure.ScanResponse)
    (hr : (124 : GoByte) ∉ req.Artifact.Repository)
    (hcred : setupCredentials c req st = Outcome.returned (none, st1))
    (himg : c.AddImage (getImageFrom req) false st1 = ((response, none), st2))
    (hd : (124 : GoByte) ∉ response.ImageDigest) :
    ∃ id : GoString,
      Scan c req st = Outcome.returned ((harbor.ScanResponse.mk id, none), st2) ∧
      ∀ st3 : σ,
        (∀ (vr : secure.VulnerabilityReport) (e : GoError) (st4 : σ),
          c.GetVulnerabilities response.ImageDigest st3 = ((vr, some e), st4) →
          ∃ (r : harbor.VulnerabilityReport) (err : GoError),
            GetVulnerabilityReport backendVersion (recording c) id (st3, []) =
              Outcome.returned ((r, some err),
                (st4, [Call.GetVulnerabilities response.ImageDigest]))) ∧
        (∀ (vr : secure.VulnerabilityReport) (st4 : σ),
          c.GetVulnerabilities response.ImageDigest st3 = ((vr, none), st4) →
          none ∈ vr.Vulnerabilities →
          GetVulnerabilityReport backendVersion (recording c) id (st3, []) =
            Outcome.panicked (st4, [Call.GetVulnerabilities response.ImageDigest])) ∧
        (∀ (vs : List secure.Vulnerability) (st4 : σ),
          c.GetVulnerabilities response.ImageDigest st3 = ((⟨vs.map some⟩, none), st4) →
          GetVulnerabilityReport backendVersion (recording c) id (st3, []) =
            Outcome.returned ((fillArtifactLoop req.Artifact.Repository
                ((vs.map vulnerabilityItemOf).foldl fillVulnerability
                  (initialReport backendVersion))
                (c.GetImage response.ImageDigest st4).1.1.ImageDetail, none),
              ((c.GetImage response.ImageDigest st4).2,
                [Call.GetVulnerabilities response.ImageDigest,
                  Call.GetImage response.ImageDigest]))) := by
  have hparse := parseScanResponseID_create_of_not_mem req.Artifact.Repository
    response.ImageDigest hr hd
  refine ⟨createScanResponseID req.Artifact.Repository response.ImageDigest, ?_, ?_⟩
  · simp only [Scan, hcred, himg]
  · intro st3
    refine ⟨?_, ?_, ?_⟩
    · intro vr e st4 hget
      have hget2 : (recording c).GetVulnerabilities response.ImageDigest (st3, []) =
          ((vr, some e), (st4, [Call.GetVulnerabilities response.ImageDigest])) := by
        simp [recording, hget]
      exact ⟨_, _, GetVulnerabilityReport_err backendVersion (recording c) _ _ _ _ _ vr e
        hparse hget2⟩
    · intro vr st4 hget hnil
      have hget2 : (recording c).GetVulnerabilities response.ImageDigest (st3, []) =
          ((vr, none), (st4, [Call.GetVulnerabilities response.ImageDigest])) := by
        simp [recording, hget]
      exact GetVulnerabilityReport_nil_entry backendVersion (recording c) _ _ _ _ _ vr
        hparse hget2 hnil
    · intro vs st4 hget
      have hget2 : (recording c).GetVulnerabilities response.ImageDigest (st3, []) =
          ((⟨vs.map some⟩, none), (st4, [Call.GetVulnerabilities response.ImageDigest])) := by
        simp [recording, hget]
      rw [GetVulnerabilityReport_ok backendVersion (recording c) _ _ _ _ _ vs hparse hget2]
      simp [recording]

/-- C16 on the scenario backend, at the request of the first scenario: the ID
that `Scan` returns is the handle of `sysdig/agent` and `sha256:0a1b`; on it
`GetVulnerabilityReport` calls `GetVulnerabilities` and `GetImage` with
`sha256:0a1b` and takes the artifact from the image detail of `sysdig/agent`,
not from the one of `library/nginx` that comes first. -/
theorem scan_then_report_witness :
    ((124 : GoByte) ∉ agentRequest.Artifact.Repository ∧
      setupCredentials scenarioClient agentRequest () = Outcome.returned (none, ()) ∧
      scenarioClient.AddImage (getImageFrom agentRequest) false () =
        ((⟨gostr "sha256:0a1b", []⟩, none), ()) ∧
      (124 : GoByte) ∉ gostr "sha256:0a1b") ∧
    Scan scenarioClient agentRequest () =
      Outcome.returned ((harbor.ScanResponse.mk agentHandle, none), ()) ∧
    (GetVulnerabilityReport (gostr "1.0") (recording scenarioClient) agentHandle
        ((), [])).result.map (fun r => (r.1.1.Artifact, r.2.2)) =
      some (some (harbor.Artifact.mk (gostr "sysdig/agent") (gostr "sha256:0a1b")
          (gostr "9.8.0") harbor.DockerDistributionManifestMimeType),
        [Call.GetVulnerabilities (gostr "sha256:0a1b"), Call.GetImage (gostr "sha256:0a1b")]) ∧
    ∃ id : GoString,
      Scan scenarioClient agentRequest () =
        Outcome.returned ((harbor.ScanResponse.mk id, none), ()) ∧
      ∀ st3 : Unit,
        (∀ (vr : secure.VulnerabilityReport) (e : GoError) (st4 : Unit),
          scenarioClient.GetVulnerabilities (gostr "sha256:0a1b") st3 = ((vr, some e), st4) →
          ∃ (r : harbor.VulnerabilityReport) (err : GoError),
            GetVulnerabilityReport (gostr "1.0") (recording scenarioClient) id (st3, []) =
              Outcome.returned ((r, some err),
                (st4, [Call.GetVulnerabilities (gostr "sha256:0a1b")]))) ∧
        (∀ (vr : secure.VulnerabilityReport) (st4 : Unit),
          scenarioClient.GetVulnerabilities (gostr "sha256:0a1b") st3 = ((vr, none), st4) →
          none ∈ vr.Vulnerabilities →
          GetVulnerabilityReport (gostr "1.0") (recording scenarioClient) id (st3, []) =
            Outcome.panicked (st4, [Call.GetVulnerabilities (gostr "sha256:0a1b")])) ∧
        (∀ (vs : List secure.Vulnerability) (st4 : Unit),
          scenarioClient.GetVulnerabilities (gostr "sha256:0a1b") st3 =
            ((⟨vs.map some⟩, none), st4) →
          GetVulnerabilityReport (gostr "1.0") (recording scenarioClient) id (st3, []) =
            Outcome.returned ((fillArtifactLoop (gostr "sysdig/agent")
                ((vs.map vulnerabilityItemOf).foldl fillVulnerability
                  (initialReport (gostr "1.0")))
                (scenarioClient.GetImage (gostr "sha256:0a1b") st4).1.1.ImageDetail, none),
              ((scenarioClient.GetImage (gostr "sha256:0a1b") st4).2,
                [Call.GetVulnerabilities (gostr "sha256:0a1b"),
                  Call.GetImage (gostr "sha256:0a1b")]))) :=
  ⟨⟨by decide, by decide, by decide, by decide⟩, by decide, by decide,
    scan_then_report (gostr "1.0") scenarioClient agentRequest () () ()
      ⟨gostr "sha256:0a1b", []⟩ (by decide) (by decide) (by decide) (by decide)⟩

/-! ## Failures -/

/-- C17: for every request whose Basic-auth header decodes to `(user, password)`:
if `AddRegistry` fails with an error other than `ErrRegistryAlreadyExists`, or
fails with `ErrRegistryAlreadyExists` and `UpdateRegistry` then fails, `Scan`
returns the zero-value `ScanResponse` with that error and `AddImage` is not
called; and when the credential step succeeds and `AddImage` fails, `Scan`
returns the zero-value `ScanResponse` with the error of `AddImage`. -/
theorem no_submission_after_failure {σ : Type} (c : secure.Client σ)
    (req : harbor.ScanRequest) (user password : GoString) (st : σ)
    (hauth : getUserAndPasswordFrom req.Registry.Authorization = some (user, password)) :
    (∀ (e : GoError) (st1 : σ),
      c.AddRegistry (getRegistryFrom req) user password st = (some e, st1) →
      e ≠ secure.ErrRegistryAlreadyExists →
      ∃ log : List Call,
        Scan (recording c) req (st, []) =
          Outcome.returned ((harbor.ScanResponse.zero, some e), (st1, log)) ∧
        log.filter Call.isAddImage = []) ∧
    (∀ (e : GoError) (st1 st2 : σ),
      c.AddRegistry (getRegistryFrom req) user password st =
        (some secure.ErrRegistryAlreadyExists, st1) →
      c.UpdateRegistry (getRegistryFrom req) user password st1 = (some e, st2) →
      ∃ log : List Call,
        Scan (recording c) req (st, []) =
          Outcome.returned ((harbor.ScanResponse.zero, some e), (st2, log)) ∧
        log.filter Call.isAddImage = []) ∧
    (∀ (e : GoError) (st1 st2 : σ) (response : secure.ScanResponse),
      setupCredentials c req st = Outcome.returned (none, st1) →
      c.AddImage (getImageFrom req) false st1 = ((response, some e), st2) →
      Scan c req st = Outcome.returned ((harbor.ScanResponse.zero, some e), st2)) := by
  refine ⟨?_, ?_, ?_⟩
  · intro e st1 hadd hne
    refine ⟨[Call.AddRegistry (getRegistryFrom req) user password], ?_, rfl⟩
    simp [Scan, setupCredentials, hauth, recording, hadd, hne]
  · intro e st1 st2 hadd hupd
    refine ⟨[Call.AddRegistry (getRegistryFrom req) user password,
      Call.UpdateRegistry (getRegistryFrom req) user password], ?_, rfl⟩
    simp [Scan, setupCredentials, hauth, recording, hadd, hupd]
  · intro e st1 st2 response hcred himg
    simp only [Scan, hcred, himg]

/-- C17 at the request of the first scenario: a backend that refuses the
registry, a backend that knows the registry and refuses the update, and a
backend that refuses the image. -/
theorem no_submission_after_failure_witness :
    getUserAndPasswordFrom agentRequest.Registry.Authorization =
        some (gostr "user", gostr "pass") ∧
      (∃ log : List Call,
        Scan (recording (fixedClient (some (GoError.other (gostr "unauthorized"))) none
            (⟨[], []⟩, none) (⟨[]⟩, none) (⟨[], []⟩, none))) agentRequest ((), []) =
          Outcome.returned ((harbor.ScanResponse.zero, some (GoError.other (gostr "unauthorized"))),
            ((), log)) ∧
        log.filter Call.isAddImage = []) ∧
      (∃ log : List Call,
        Scan (recording (fixedClient (some secure.ErrRegistryAlreadyExists)
            (some (GoError.other (gostr "forbidden")))
            (⟨[], []⟩, none) (⟨[]⟩, none) (⟨[], []⟩, none))) agentRequest ((), []) =
          Outcome.returned ((harbor.ScanResponse.zero, some (GoError.other (gostr "forbidden"))),
            ((), log)) ∧
        log.filter Call.isAddImage = []) ∧
      Scan (fixedClient none none (⟨[], []⟩, some (GoError.other (gostr "no manifest")))
          (⟨[]⟩, none) (⟨[], []⟩, none)) agentRequest () =
        Outcome.returned ((harbor.ScanResponse.zero, some (GoError.other (gostr "no manifest"))), ()) :=
  ⟨by decide,
    (no_submission_after_failure (fixedClient (some (GoError.other (gostr "unauthorized"))) none
      (⟨[], []⟩, none) (⟨[]⟩, none) (⟨[], []⟩, none)) agentRequest (gostr "user") (gostr "pass")
      () (by decide)).1 _ () rfl (by decide),
    (no_submission_after_failure (fixedClient (some secure.ErrRegistryAlreadyExists)
      (some (GoError.other (gostr "forbidden"))) (⟨[], []⟩, none) (⟨[]⟩, none)
      (⟨[], []⟩, none)) agentRequest (gostr "user") (gostr "pass")
      () (by decide)).2.1 _ () () rfl rfl,
    (no_submission_after_failure
      (fixedClient none none (⟨[], []⟩, some (GoError.other (gostr "no manifest")))
        (⟨[]⟩, none) (⟨[], []⟩, none)) agentRequest (gostr "user") (gostr "pass")
      () (by decide)).2.2 _ () () ⟨[], []⟩ (by decide) rfl⟩

/-- C18: for every handle that parses, if the backend's `GetVulnerabilities`
returns an error, `GetVulnerabilityReport` returns the zero-value
`VulnerabilityReport` (no scanner, empty severity, no items, no artifact)
together with an error, the error of the backend or the adapter's error it is
mapped to, and `GetVulnerabilities` is the only call made: `GetImage` is not
called. -/
theorem vulnerability_fetch_failure {σ : Type} (backendVersion : GoString)
    (c : secure.Client σ) (scanResponseID repository shaDigest : GoString) (st st1 : σ)
    (backendReport : secure.VulnerabilityReport) (e : GoError)
    (hparse : parseScanResponseID scanResponseID = some (repository, shaDigest))
    (hget : c.GetVulnerabilities shaDigest st = ((backendReport, some e), st1)) :
    ∃ (report : harbor.VulnerabilityReport) (err : GoError),
      GetVulnerabilityReport backendVersion (recording c) scanResponseID (st, []) =
        Outcome.returned ((report, some err), (st1, [Call.GetVulnerabilities shaDigest])) ∧
      report.Scanner = none ∧ report.Severity = [] ∧ report.Vulnerabilities = [] ∧
      report.Artifact = none ∧ report.GeneratedAt = 0 ∧
      (err = e ∨ (e = secure.ErrImageNotFound ∧ err = ErrScanRequestIDNotFound) ∨
        (e = secure.ErrVulnerabiltyReportNotReady ∧ err = ErrVulnerabiltyReportNotReady)) := by
  have hget2 : (recording c).GetVulnerabilities shaDigest (st, []) =
      ((backendReport, some e), (st1, [Call.GetVulnerabilities shaDigest])) := by
    simp [recording, hget]
  refine ⟨_, _, GetVulnerabilityReport_err backendVersion (recording c) scanResponseID
    repository shaDigest _ _ backendReport e hparse hget2, rfl, rfl, rfl, rfl, rfl, ?_⟩
  split_ifs with h1 h2
  · exact Or.inr (Or.inl ⟨h1, rfl⟩)
  · exact Or.inr (Or.inr ⟨h2, rfl⟩)
  · exact Or.inl rfl

/-- C18 at the handle of `sysdig/agent` and a backend that does not know the
image. -/
theorem vulnerability_fetch_failure_witness :
    GetVulnerabilityReport (gostr "1.0") (recording (failingClient secure.ErrImageNotFound))
        agentHandle ((), []) =
      Outcome.returned ((harbor.VulnerabilityReport.zero, some ErrScanRequestIDNotFound),
        ((), [Call.GetVulnerabilities (gostr "sha256:0a1b")])) ∧
    ∃ (report : harbor.VulnerabilityReport) (err : GoError),
      GetVulnerabilityReport (gostr "1.0") (recording (failingClient secure.ErrImageNotFound))
          agentHandle ((), []) =
        Outcome.returned ((report, some err), ((), [Call.GetVulnerabilities (gostr "sha256:0a1b")])) ∧
      report.Scanner = none ∧ report.Severity = [] ∧ report.Vulnerabilities = [] ∧
      report.Artifact = none ∧ report.GeneratedAt = 0 ∧
      (err = secure.ErrImageNotFound ∨
        (secure.ErrImageNotFound = secure.ErrImageNotFound ∧ err = ErrScanRequestIDNotFound) ∨
        (secure.ErrImageNotFound = secure.ErrVulnerabiltyReportNotReady ∧
          err = ErrVulnerabiltyReportNotReady)) :=
  ⟨by decide,
    vulnerability_fetch_failure (gostr "1.0") (failingClient secure.ErrImageNotFound)
      agentHandle (gostr "sysdig/agent") (gostr "sha256:0a1b") () () ⟨[]⟩
      secure.ErrImageNotFound (by decide) rfl⟩

/-! ## The order of the findings -/

/-- Two lists with the same members give the same running severity. -/
theorem foldl_fillVulnerability_same_members (l1 l2 : List harbor.VulnerabilityItem)
    (hmem : ∀ v, v ∈ l1 ↔ v ∈ l2) (result : harbor.VulnerabilityReport) :
    (l1.foldl fillVulnerability result).Severity =
      (l2.foldl fillVulnerability result).Severity := by
  have hr1 := (foldl_fillVulnerability_rank l1 result).2
  have hr2 := (foldl_fillVulnerability_rank l2 result).2
  have h0 := severities_nonneg result.Severity
  rcases foldl_fillVulnerability_strict l1 result with h1 | ⟨v1, hv1, he1, hlt1⟩
  · rcases foldl_fillVulnerability_strict l2 result with h2 | ⟨v2, hv2, he2, hlt2⟩
    · rw [h1, h2]
    · have := hr1 v2 ((hmem v2).mpr hv2)
      rw [he2, h1] at this
      exact absurd hlt2 (not_lt.mpr this)
  · rcases foldl_fillVulnerability_strict l2 result with h2 | ⟨v2, hv2, he2, hlt2⟩
    · have := hr2 v1 ((hmem v1).mp hv1)
      rw [he1, h2] at this
      exact absurd hlt1 (not_lt.mpr this)
    · have ha := hr2 v1 ((hmem v1).mp hv1)
      have hb := hr1 v2 ((hmem v2).mpr hv2)
      rw [he1] at ha
      rw [he2] at hb
      exact severities_inj_pos _ _ (lt_of_le_of_lt h0 hlt1) (le_antisymm ha hb)

/-- C19: for every two backend vulnerability lists that are permutations of each
other, whatever their severity strings, the reports that the two calls of
`GetVulnerabilityReport` return have the same `Severity`.  Both calls return a
report when the lists have no nil entry, and both panic when they have one. -/
theorem severity_order_independent {σ τ : Type} (backendVersion : GoString)
    (c1 : secure.Client σ) (c2 : secure.Client τ)
    (id1 repository1 shaDigest1 id2 repository2 shaDigest2 : GoString)
    (s1 s1' : σ) (s2 s2' : τ) (report1 report2 : secure.VulnerabilityReport)
    (hparse1 : parseScanResponseID id1 = some (repository1, shaDigest1))
    (hget1 : c1.GetVulnerabilities shaDigest1 s1 = ((report1, none), s1'))
    (hparse2 : parseScanResponseID id2 = some (repository2, shaDigest2))
    (hget2 : c2.GetVulnerabilities shaDigest2 s2 = ((report2, none), s2'))
    (hperm : report1.Vulnerabilities.Perm report2.Vulnerabilities) :
    (∀ (r1 r2 : harbor.VulnerabilityReport) (e1 e2 : Option GoError) (t1 : σ) (t2 : τ),
      GetVulnerabilityReport backendVersion c1 id1 s1 = Outcome.returned ((r1, e1), t1) →
      GetVulnerabilityReport backendVersion c2 id2 s2 = Outcome.returned ((r2, e2), t2) →
      r1.Severity = r2.Severity) ∧
    (none ∉ report1.Vulnerabilities →
      ∃ (r1 r2 : harbor.VulnerabilityReport) (t1 : σ) (t2 : τ),
        GetVulnerabilityReport backendVersion c1 id1 s1 = Outcome.returned ((r1, none), t1) ∧
        GetVulnerabilityReport backendVersion c2 id2 s2 = Outcome.returned ((r2, none), t2)) ∧
    (none ∈ report1.Vulnerabilities →
      GetVulnerabilityReport backendVersion c1 id1 s1 = Outcome.panicked s1' ∧
      GetVulnerabilityReport backendVersion c2 id2 s2 = Outcome.panicked s2') := by
  have hpanic : none ∈ report1.Vulnerabilities →
      GetVulnerabilityReport backendVersion c1 id1 s1 = Outcome.panicked s1' ∧
      GetVulnerabilityReport backendVersion c2 id2 s2 = Outcome.panicked s2' := by
    intro hnil
    exact ⟨GetVulnerabilityReport_nil_entry backendVersion c1 id1 repository1 shaDigest1 s1 s1'
        report1 hparse1 hget1 hnil,
      GetVulnerabilityReport_nil_entry backendVersion c2 id2 repository2 shaDigest2 s2 s2'
        report2 hparse2 hget2 (hperm.mem_iff.mp hnil)⟩
  have hreturn : none ∉ report1.Vulnerabilities →
      ∃ vs1 vs2 : List secure.Vulnerability,
        GetVulnerabilityReport backendVersion c1 id1 s1 =
          Outcome.returned ((fillArtifactLoop repository1
            ((vs1.map vulnerabilityItemOf).foldl fillVulnerability
              (initialReport backendVersion))
            (c1.GetImage shaDigest1 s1').1.1.ImageDetail, none),
            (c1.GetImage shaDigest1 s1').2) ∧
        GetVulnerabilityReport backendVersion c2 id2 s2 =
          Outcome.returned ((fillArtifactLoop repository2
            ((vs2.map vulnerabilityItemOf).foldl fillVulnerability
              (initialReport backendVersion))
            (c2.GetImage shaDigest2 s2').1.1.ImageDetail, none),
            (c2.GetImage shaDigest2 s2').2) ∧
        ∀ v, v ∈ vs1 ↔ v ∈ vs2 := by
    intro hnil1
    have hnil2 : none ∉ report2.Vulnerabilities := fun h => hnil1 (hperm.mem_iff.mpr h)
    obtain ⟨vs1, hvs1⟩ := records_of_no_nil _ hnil1
    obtain ⟨vs2, hvs2⟩ := records_of_no_nil _ hnil2
    obtain ⟨l1⟩ := report1
    obtain ⟨l2⟩ := report2
    simp only at hvs1 hvs2 hperm
    subst hvs1
    subst hvs2
    refine ⟨vs1, vs2,
      GetVulnerabilityReport_ok backendVersion c1 id1 repository1 shaDigest1 s1 s1' vs1
        hparse1 hget1,
      GetVulnerabilityReport_ok backendVersion c2 id2 repository2 shaDigest2 s2 s2' vs2
        hparse2 hget2, ?_⟩
    intro v
    have := hperm.mem_iff (a := some v)
    simpa using this
  refine ⟨?_, ?_, hpanic⟩
  · intro r1 r2 e1 e2 t1 t2 h1 h2
    by_cases hnil : none ∈ report1.Vulnerabilities
    · rw [(hpanic hnil).1] at h1
      cases h1
    · obtain ⟨vs1, vs2, hg1, hg2, hmem⟩ := hreturn hnil
      rw [hg1] at h1
      rw [hg2] at h2
      simp only [Outcome.returned.injEq, Prod.mk.injEq] at h1 h2
      rw [← h1.1.1, ← h2.1.1, fillArtifactLoop_Severity, fillArtifactLoop_Severity]
      refine foldl_fillVulnerability_same_members _ _ (fun item => ?_) _
      simp only [List.mem_map]
      constructor
      · rintro ⟨v, hv, rfl⟩
        exact ⟨v, (hmem v).mp hv, rfl⟩
      · rintro ⟨v, hv, rfl⟩
        exact ⟨v, (hmem v).mpr hv, rfl⟩
  · intro hnil
    obtain ⟨vs1, vs2, hg1, hg2, -⟩ := hreturn hnil
    exact ⟨_, _, _, _, hg1, hg2⟩

/-- C19 at the handle of `sysdig/agent` and two backends that report the same
four records, one of a severity outside the ranking table, in two orders: both
reports have the severity `HIGH`. -/
theorem severity_order_independent_witness :
    ((GetVulnerabilityReport (gostr "1.0") (reportingClient mixedFindings) agentHandle
        ()).result.map (fun r => r.1.1.Severity) = some harbor.HIGH ∧
      (GetVulnerabilityReport (gostr "1.0") (reportingClient mixedFindingsShuffled) agentHandle
        ()).result.map (fun r => r.1.1.Severity) = some harbor.HIGH ∧
      (mixedFindings.map some).Perm (mixedFindingsShuffled.map some)) ∧
    (∀ (r1 r2 : harbor.VulnerabilityReport) (e1 e2 : Option GoError) (t1 t2 : Unit),
      GetVulnerabilityReport (gostr "1.0") (reportingClient mixedFindings) agentHandle () =
        Outcome.returned ((r1, e1), t1) →
      GetVulnerabilityReport (gostr "1.0") (reportingClient mixedFindingsShuffled) agentHandle
        () = Outcome.returned ((r2, e2), t2) →
      r1.Severity = r2.Severity) ∧
    (none ∉ mixedFindings.map some →
      ∃ (r1 r2 : harbor.VulnerabilityReport) (t1 t2 : Unit),
        GetVulnerabilityReport (gostr "1.0") (reportingClient mixedFindings) agentHandle () =
          Outcome.returned ((r1, none), t1) ∧
        GetVulnerabilityReport (gostr "1.0") (reportingClient mixedFindingsShuffled)
          agentHandle () = Outcome.returned ((r2, none), t2)) ∧
    (none ∈ mixedFindings.map some →
      GetVulnerabilityReport (gostr "1.0") (reportingClient mixedFindings) agentHandle () =
        Outcome.panicked () ∧
      GetVulnerabilityReport (gostr "1.0") (reportingClient mixedFindingsShuffled) agentHandle
        () = Outcome.panicked ()) :=
  ⟨⟨by decide, by decide, by decide⟩,
    severity_order_independent (gostr "1.0") (reportingClient mixedFindings)
      (reportingClient mixedFindingsShuffled)
      agentHandle (gostr "sysdig/agent") (gostr "sha256:0a1b")
      agentHandle (gostr "sysdig/agent") (gostr "sha256:0a1b") () () () ()
      ⟨mixedFindings.map some⟩ ⟨mixedFindingsShuffled.map some⟩
      (by decide) rfl (by decide) rfl (by decide)⟩

end BackendAdapter
